import Mathlib

/-!
Shallow embedding of the one-dimensional reacting-flow domain `StFlow`
(`StFlow.cpp`).  Real-valued quantities (C++ `double`) are embedded as
rationals, so algebraic identities are exact.  Per-point solution buffers,
residual buffers and classification buffers are embedded as total functions
from a (component, point) pair; the C++ flat layout `index(n, j) = n + nv*j`
is a bijection between these pairs (with component below `nv`) and flat
offsets, so nothing is lost.  Loops that write pairwise-distinct cells whose
values do not read the buffer being written are embedded by their
extensional result; loops with overwrites (boundary excess species) or
whose write footprint is itself under study (radiation) are embedded as
sequential folds.
-/

namespace StFlow

/-! ### Component offsets

Modelled from the spec: the per-point state tuple is
{velocity, spread-rate, temperature, lambda, electric-field placeholder,
species mass fractions}, so the five named components occupy offsets 0..4
and species start at offset 5.  (The enum itself lives in the `StFlow`
header, which is not among the provided sources.) -/

def c_offset_U : ℕ := 0

def c_offset_V : ℕ := 1

def c_offset_T : ℕ := 2

def c_offset_L : ℕ := 3

def c_offset_E : ℕ := 4

def c_offset_Y : ℕ := 5

/-- Solution / residual buffer: (component, point) to value. -/
abbrev Buf := ℕ × ℕ → ℚ

/-- Algebraic (0) / differential (1) classification buffer. -/
abbrev DiagBuf := ℕ × ℕ → ℤ

/-- Physical constants (`ct_defs.h` values, exact decimals). -/
def OneAtm : ℚ := 101325

def StefanBoltz : ℚ := 5670374419 / 10 ^ 17

/-- Gas state handed to the external thermo/transport/kinetics collaborators
by `setGas` / `setGasAtMidpoint`: temperature, mass fractions, pressure. -/
structure GasState where
  temp : ℚ
  massFractions : ℕ → ℚ
  press : ℚ

/-- External collaborator contracts (spec section 6): each property is an
arbitrary function of the currently set gas state. -/
structure Collab where
  density : GasState → ℚ
  meanMW : GasState → ℚ
  cp_mass : GasState → ℚ
  viscosity : GasState → ℚ
  thermalConductivity : GasState → ℚ
  mixDiff : GasState → ℕ → ℚ
  multiDiff : GasState → ℕ → ℕ → ℚ
  thermalDiff : GasState → ℕ → ℚ
  netProductionRates : GasState → ℕ → ℚ
  molarEnthalpies : GasState → ℕ → ℚ

/-- Persistent configuration of the domain: grid, flags, fixed profiles, and
the previous-timestep solution (written by the external time integrator,
never by `eval`). -/
structure Config where
  nsp : ℕ
  points : ℕ
  z : ℕ → ℚ
  wt : ℕ → ℚ
  press : ℚ
  usesLambda : Bool
  isFree : Bool
  do_multicomponent : Bool
  do_soret : Bool
  do_radiation : Bool
  dovisc : Bool
  force_full_update : Bool
  do_energy : ℕ → Bool
  fixedtemp : ℕ → ℚ
  zfixed : ℚ
  tfixed : ℚ
  tfixedDef : Bool
  epsilon_left : ℚ
  epsilon_right : ℚ
  kRadiating0 : Option ℕ
  kRadiating1 : Option ℕ
  slast : ℕ × ℕ → ℚ

/-- Mutable per-call work buffers of the domain (`m_rho`, `m_diff`,
`m_flux`, ... in the source): overwritten in place by the update routines,
carried across calls otherwise. -/
structure Cache where
  rho : ℕ → ℚ
  wtm : ℕ → ℚ
  cp : ℕ → ℚ
  visc : ℕ → ℚ
  tcon : ℕ → ℚ
  diff : ℕ → ℚ
  multidiff : ℕ → ℚ
  dthermal : ℕ × ℕ → ℚ
  wdot : ℕ × ℕ → ℚ
  hk : ℕ × ℕ → ℚ
  dhk_dz : ℕ × ℕ → ℚ
  flux : ℕ × ℕ → ℚ
  qdotRadiation : ℕ → ℚ
  kExcessLeft : ℕ
  kExcessRight : ℕ

/-! ### State accessors

Modelled from the spec: per-point component reads of the state layout of
section 3 (the inline accessors live in the `StFlow` header, not among the
provided sources). -/

def Tx (x : Buf) (j : ℕ) : ℚ := x (c_offset_T, j)

def ux (x : Buf) (j : ℕ) : ℚ := x (c_offset_U, j)

def Vx (x : Buf) (j : ℕ) : ℚ := x (c_offset_V, j)

def Lx (x : Buf) (j : ℕ) : ℚ := x (c_offset_L, j)

def Yx (x : Buf) (k j : ℕ) : ℚ := x (c_offset_Y + k, j)

/-- Modelled from the spec: mole fraction (used for partial pressures and
diffusive driving forces) recovered from the stored mass fraction via the
cached mean molecular weight and the species molecular weight. -/
def Xx (cfg : Config) (c : Cache) (x : Buf) (k j : ℕ) : ℚ :=
  c.wtm j * Yx x k j / cfg.wt k

/-- Interval width `m_dz[j] = z(j+1) - z(j)` (maintained by `setupGrid`). -/
def dz (cfg : Config) (j : ℕ) : ℚ := cfg.z (j + 1) - cfg.z j

/-- Mass flux `rho_u(x, j) = m_rho[j] * u(x, j)`. -/
def rho_u (c : Cache) (x : Buf) (j : ℕ) : ℚ := c.rho j * ux x j

/-- Modelled from the spec: upwinded one-sided temperature difference. -/
def dTdz (cfg : Config) (x : Buf) (j : ℕ) : ℚ :=
  if 0 < ux x j then (Tx x j - Tx x (j - 1)) / dz cfg (j - 1)
  else (Tx x (j + 1) - Tx x j) / dz cfg j

/-- Modelled from the spec: upwinded one-sided spread-rate difference. -/
def dVdz (cfg : Config) (x : Buf) (j : ℕ) : ℚ :=
  if 0 < ux x j then (Vx x j - Vx x (j - 1)) / dz cfg (j - 1)
  else (Vx x (j + 1) - Vx x j) / dz cfg j

/-- Modelled from the spec: upwinded one-sided mass-fraction difference. -/
def dYdz (cfg : Config) (x : Buf) (k j : ℕ) : ℚ :=
  if 0 < ux x j then (Yx x k j - Yx x k (j - 1)) / dz cfg (j - 1)
  else (Yx x k (j + 1) - Yx x k j) / dz cfg j

/-- Modelled from the spec: viscous shear term of the momentum balance. -/
def shear (cfg : Config) (c : Cache) (x : Buf) (j : ℕ) : ℚ :=
  2 * (c.visc j * (Vx x (j + 1) - Vx x j) / (cfg.z (j + 1) - cfg.z j)
        - c.visc (j - 1) * (Vx x j - Vx x (j - 1)) / (cfg.z j - cfg.z (j - 1)))
    / (cfg.z (j + 1) - cfg.z (j - 1))

/-- Modelled from the spec: conductive heat-flux divergence of the energy
balance. -/
def divHeatFlux (cfg : Config) (c : Cache) (x : Buf) (j : ℕ) : ℚ :=
  -2 * (c.tcon j * (Tx x (j + 1) - Tx x j) / (cfg.z (j + 1) - cfg.z j)
         - c.tcon (j - 1) * (Tx x j - Tx x (j - 1)) / (cfg.z j - cfg.z (j - 1)))
    / (cfg.z (j + 1) - cfg.z (j - 1))

/-- Sum of the species mass fractions at point `j`. -/
def sumY (cfg : Config) (x : Buf) (j : ℕ) : ℚ :=
  ∑ k ∈ Finset.range cfg.nsp, Yx x k j

/-! ### Error kinds -/

/-- Error conditions: fatal configuration errors (`CanteraError`) versus the
distinct unsupported-capability signal (`NotImplementedError`). -/
inductive CtError where
  | cantera (who msg : String)
  | notImplemented (who : String)
deriving DecidableEq

/-! ### Grid buffers, `resize` and `setupGrid` -/

/-- A dynamically sized numeric buffer (a `vector<double>`): a length and the
cell contents (cells at or beyond `len` read as 0). -/
structure DVec where
  len : ℕ
  val : ℕ → ℚ

/-- `vector::resize`: keeps the first `min (old length) n` cells,
value-initializes the rest. -/
def dvResize (v : DVec) (n : ℕ) : DVec :=
  ⟨n, fun j => if j < v.len ∧ j < n then v.val j else 0⟩

/-- Write one cell. -/
def dvSet (v : DVec) (j : ℕ) (q : ℚ) : DVec :=
  ⟨v.len, Function.update v.val j q⟩

/-- The grid buffers `m_z` and `m_dz`. -/
structure GridBufs where
  m_z : DVec
  m_dz : DVec

/-- The part of `StFlow::resize` acting on the grid buffers:
`m_z.resize(points)`, `m_dz.resize(points - 1)` (the remaining per-point
work buffers are resized alongside). -/
def resizeGrid (g : GridBufs) (points : ℕ) : GridBufs :=
  ⟨dvResize g.m_z points, dvResize g.m_dz (points - 1)⟩

/-- The validation/write loop of `StFlow::setupGrid` starting at index `j`
with `steps` iterations left: on a non-increasing pair it throws, leaving
the buffers as already written (the error carries the partially updated
state). -/
def setupGridAux (z : ℕ → ℚ) : ℕ → ℕ → GridBufs → Except GridBufs GridBufs
  | _, 0, g => .ok g
  | j, steps + 1, g =>
    if z j ≤ z (j - 1) then .error g
    else
      setupGridAux z (j + 1) steps
        ⟨dvSet g.m_z j (z j), dvSet g.m_dz (j - 1) (z j - z (j - 1))⟩

/-- `StFlow::setupGrid(n, z)`: resize first, write `m_z[0]`, then validate
and write the remaining coordinates and interval widths. -/
def setupGrid (g : GridBufs) (n : ℕ) (z : ℕ → ℚ) : Except GridBufs GridBufs :=
  let g0 := resizeGrid g n
  setupGridAux z 1 (n - 1) ⟨dvSet g0.m_z 0 (z 0), g0.m_dz⟩

/-! ### Chemical-state setters -/

/-- `StFlow::setGas`: point state handed to the collaborators. -/
def setGas (cfg : Config) (x : Buf) (j : ℕ) : GasState :=
  ⟨Tx x j, fun k => Yx x k j, cfg.press⟩

/-- `StFlow::setGasAtMidpoint`: arithmetic-midpoint state of interval `j`. -/
def setGasAtMidpoint (cfg : Config) (x : Buf) (j : ℕ) : GasState :=
  ⟨(Tx x j + Tx x (j + 1)) / 2,
   fun k => (Yx x k j + Yx x k (j + 1)) / 2, cfg.press⟩

/-! ### Property refresh within a window -/

/-- Modelled from the spec: the per-point thermodynamic refresh over the
inclusive point range `[j0, j1]` — density, mean molecular weight, specific
heat, net production rates and species molar enthalpies from the chemical
and kinetics collaborators (the loop body lives in the `StFlow` header,
which is not among the provided sources). -/
def updateThermo (cfg : Config) (cb : Collab) (x : Buf) (j0 j1 : ℕ)
    (c : Cache) : Cache :=
  { c with
    rho := fun j => if j0 ≤ j ∧ j ≤ j1 then cb.density (setGas cfg x j) else c.rho j
    wtm := fun j => if j0 ≤ j ∧ j ≤ j1 then cb.meanMW (setGas cfg x j) else c.wtm j
    cp := fun j => if j0 ≤ j ∧ j ≤ j1 then cb.cp_mass (setGas cfg x j) else c.cp j
    wdot := fun p =>
      if j0 ≤ p.2 ∧ p.2 ≤ j1 ∧ p.1 < cfg.nsp then
        cb.netProductionRates (setGas cfg x p.2) p.1
      else c.wdot p
    hk := fun p =>
      if j0 ≤ p.2 ∧ p.2 ≤ j1 ∧ p.1 < cfg.nsp then
        cb.molarEnthalpies (setGas cfg x p.2) p.1
      else c.hk p }

/-- Flat index of the multicomponent diffusion matrix entry (k, m) of
interval j.  Modelled from the spec: one dense species-by-species block per
interval (the packing function lives in the header). -/
def mindex (cfg : Config) (k m j : ℕ) : ℕ :=
  j * (cfg.nsp * cfg.nsp) + m * cfg.nsp + k

/-- `StFlow::updateTransport` over intervals `j0 ≤ j < j1`: midpoint gas
state, then viscosity, diffusion data, conductivity (and thermal-diffusion
coefficients in the multicomponent/Soret case).  In the multicomponent
branch `m_diff` stores the factor `wt_k * rho / wtm^2`; in the mixture
branch it stores the mixture coefficient scaled by `wt_k * rho / wtm`. -/
def updateTransport (cfg : Config) (cb : Collab) (x : Buf) (j0 j1 : ℕ)
    (c : Cache) : Cache :=
  if cfg.do_multicomponent then
    { c with
      visc := fun j =>
        if j0 ≤ j ∧ j < j1 then
          (if cfg.dovisc then cb.viscosity (setGasAtMidpoint cfg x j) else 0)
        else c.visc j
      multidiff := fun i =>
        if j0 ≤ i / (cfg.nsp * cfg.nsp) ∧ i / (cfg.nsp * cfg.nsp) < j1 then
          cb.multiDiff (setGasAtMidpoint cfg x (i / (cfg.nsp * cfg.nsp)))
            (i % (cfg.nsp * cfg.nsp) % cfg.nsp) (i % (cfg.nsp * cfg.nsp) / cfg.nsp)
        else c.multidiff i
      diff := fun i =>
        if j0 ≤ i / cfg.nsp ∧ i / cfg.nsp < j1 then
          cfg.wt (i % cfg.nsp) * cb.density (setGasAtMidpoint cfg x (i / cfg.nsp))
            / (cb.meanMW (setGasAtMidpoint cfg x (i / cfg.nsp))
                * cb.meanMW (setGasAtMidpoint cfg x (i / cfg.nsp)))
        else c.diff i
      tcon := fun j =>
        if j0 ≤ j ∧ j < j1 then
          cb.thermalConductivity (setGasAtMidpoint cfg x j)
        else c.tcon j
      dthermal := fun p =>
        if cfg.do_soret ∧ j0 ≤ p.2 ∧ p.2 < j1 ∧ p.1 < cfg.nsp then
          cb.thermalDiff (setGasAtMidpoint cfg x p.2) p.1
        else c.dthermal p }
  else
    { c with
      visc := fun j =>
        if j0 ≤ j ∧ j < j1 then
          (if cfg.dovisc then cb.viscosity (setGasAtMidpoint cfg x j) else 0)
        else c.visc j
      diff := fun i =>
        if j0 ≤ i / cfg.nsp ∧ i / cfg.nsp < j1 then
          cb.mixDiff (setGasAtMidpoint cfg x (i / cfg.nsp)) (i % cfg.nsp)
            * (cfg.wt (i % cfg.nsp) * cb.density (setGasAtMidpoint cfg x (i / cfg.nsp))
                / cb.meanMW (setGasAtMidpoint cfg x (i / cfg.nsp)))
        else c.diff i
      tcon := fun j =>
        if j0 ≤ j ∧ j < j1 then
          cb.thermalConductivity (setGasAtMidpoint cfg x j)
        else c.tcon j }

/-! ### Diffusive flux reconstruction -/

/-- Mixture-averaged raw species flux on interval `j` (before the
corrective term): own mole-fraction gradient times the cached coefficient. -/
def mixFluxRaw (cfg : Config) (c : Cache) (x : Buf) (k j : ℕ) : ℚ :=
  c.diff (k + cfg.nsp * j)
    * ((Xx cfg c x k j - Xx cfg c x k (j + 1)) / (cfg.z (j + 1) - cfg.z j))

/-- The single per-interval corrective term: minus the sum of the raw
fluxes (`sum` in the source). -/
def mixFluxCorr (cfg : Config) (c : Cache) (x : Buf) (j : ℕ) : ℚ :=
  -∑ k ∈ Finset.range cfg.nsp, mixFluxRaw cfg c x k j

/-- Multicomponent species flux on interval `j`. -/
def multiFlux (cfg : Config) (c : Cache) (x : Buf) (k j : ℕ) : ℚ :=
  (∑ m ∈ Finset.range cfg.nsp,
      cfg.wt m * c.multidiff (mindex cfg k m j) * (Xx cfg c x m (j + 1) - Xx cfg c x m j))
    * c.diff (k + j * cfg.nsp) / (cfg.z (j + 1) - cfg.z j)

/-- Logarithmic temperature gradient of interval `m` (Soret term). -/
def gradlogT (cfg : Config) (x : Buf) (m : ℕ) : ℚ :=
  2 * (Tx x (m + 1) - Tx x m)
    / ((Tx x (m + 1) + Tx x m) * (cfg.z (m + 1) - cfg.z m))

/-- `StFlow::updateDiffFluxes` over intervals `j0 ≤ j < j1`: multicomponent
matrix product, or mixture-averaged gradient flux plus the per-interval
corrective term scaled by the left-point mass fraction; then the optional
Soret term is subtracted in place. -/
def updateDiffFluxes (cfg : Config) (c : Cache) (x : Buf) (j0 j1 : ℕ) : Cache :=
  let base : ℕ × ℕ → ℚ := fun p =>
    if j0 ≤ p.2 ∧ p.2 < j1 ∧ p.1 < cfg.nsp then
      if cfg.do_multicomponent then multiFlux cfg c x p.1 p.2
      else mixFluxRaw cfg c x p.1 p.2 + mixFluxCorr cfg c x p.2 * Yx x p.1 p.2
    else c.flux p
  { c with
    flux := fun p =>
      if cfg.do_soret ∧ j0 ≤ p.2 ∧ p.2 < j1 ∧ p.1 < cfg.nsp then
        base p - c.dthermal p * gradlogT cfg x p.2
      else base p }

/-! ### Radiation submodel -/

/-- Polynomial coefficients of the H2O Planck-mean absorption fit. -/
def c_H2O : ℕ → ℚ
  | 0 => -23093 / 100000
  | 1 => -112390 / 100000
  | 2 => 941530 / 100000
  | 3 => -299880 / 100000
  | 4 => 51382 / 100000
  | 5 => -18684 / 10 ^ 9
  | _ => 0

/-- Polynomial coefficients of the CO2 Planck-mean absorption fit. -/
def c_CO2 : ℕ → ℚ
  | 0 => 18741 / 1000
  | 1 => -121310 / 1000
  | 2 => 273500 / 1000
  | 3 => -194050 / 1000
  | 4 => 56310 / 1000
  | 5 => -58169 / 10000
  | _ => 0

/-- The radiative heat-loss value written at point `j` by
`StFlow::computeRadiation`. -/
def radValue (cfg : Config) (c : Cache) (x : Buf) (j : ℕ) : ℚ :=
  let k_P_ref : ℚ := 1 * OneAtm
  let bl := cfg.epsilon_left * StefanBoltz * Tx x 0 ^ 4
  let br := cfg.epsilon_right * StefanBoltz * Tx x (cfg.points - 1) ^ 4
  let kPH2O :=
    match cfg.kRadiating1 with
    | some kH =>
      cfg.press * Xx cfg c x kH j
        * ((∑ n ∈ Finset.range 6, c_H2O n * (1000 / Tx x j) ^ n) / k_P_ref)
    | none => 0
  let kP :=
    kPH2O +
      match cfg.kRadiating0 with
      | some kC =>
        cfg.press * Xx cfg c x kC j
          * ((∑ n ∈ Finset.range 6, c_CO2 n * (1000 / Tx x j) ^ n) / k_P_ref)
      | none => 0
  2 * kP * (2 * StefanBoltz * Tx x j ^ 4 - bl - br)

/-- The write loop of `computeRadiation`: starting at point `j` with `steps`
iterations left, writes successive radiative-loss cells. -/
def radLoop (cfg : Config) (c : Cache) (x : Buf) :
    ℕ → ℕ → (ℕ → ℚ) → (ℕ → ℚ)
  | _, 0, q => q
  | j, steps + 1, q =>
    radLoop cfg c x (j + 1) steps (Function.update q j (radValue cfg c x j))

/-- `StFlow::computeRadiation` over the window: writes the loss cells for
`jmin ≤ j < jmax` (note the strict upper bound). -/
def computeRadiation (cfg : Config) (c : Cache) (x : Buf) (jmin jmax : ℕ) :
    Cache :=
  { c with qdotRadiation := radLoop cfg c x jmin (jmax - jmin) c.qdotRadiation }

/-! ### Excess species and window-wide property refresh -/

/-- `std::max_element` over `[0, n)`: index of the first maximal entry. -/
def maxElementIdx (f : ℕ → ℚ) (n : ℕ) : ℕ :=
  (List.range n).foldl (fun best k => if f best < f k then k else best) 0

/-- `StFlow::updateProperties`: thermo refresh always; transport refresh and
the excess-species indices only during a full (non-Jacobian) evaluation or
under the force-full-update flag; diffusive fluxes always. -/
def updateProperties (cfg : Config) (cb : Collab) (jg : Option ℕ) (x : Buf)
    (jmin jmax : ℕ) (c : Cache) : Cache :=
  let j0 := max jmin 1 - 1
  let j1 := min (jmax + 1) (cfg.points - 1)
  let c1 := updateThermo cfg cb x j0 j1 c
  let c2 :=
    if jg = none ∨ cfg.force_full_update then updateTransport cfg cb x j0 j1 c1
    else c1
  let c3 :=
    if jg = none then
      { c2 with
        kExcessLeft := maxElementIdx (fun k => Yx x k jmin) cfg.nsp
        kExcessRight := maxElementIdx (fun k => Yx x k jmax) cfg.nsp }
    else c2
  updateDiffFluxes cfg c3 x j0 j1

/-! ### Equation assemblers

Each assembler writes its component row within the window, following the
source: boundary blocks first, then the interior loop over
`max(jmin,1) ≤ j ≤ min(jmax, points-2)`. -/

/-- Interior continuity residual value per flow mode. -/
def contInterior (cfg : Config) (c : Cache) (x : Buf) (j : ℕ) : ℚ :=
  if cfg.usesLambda then
    -(rho_u c x (j + 1) - rho_u c x j) / dz cfg j
      - (c.rho (j + 1) * Vx x (j + 1) + c.rho j * Vx x j)
  else if cfg.isFree then
    if cfg.zfixed < cfg.z j then -(rho_u c x j - rho_u c x (j - 1)) / dz cfg (j - 1)
    else if cfg.z j = cfg.zfixed then
      if cfg.do_energy j then Tx x j - cfg.tfixed
      else rho_u c x j - c.rho 0 * (3 / 10)
    else -(rho_u c x (j + 1) - rho_u c x j) / dz cfg j
  else rho_u c x j - rho_u c x (j - 1)

/-- `StFlow::evalContinuity`. -/
def evalContinuity (cfg : Config) (c : Cache) (x : Buf) (rsd : Buf)
    (diag : DiagBuf) (jmin jmax : ℕ) : Buf × DiagBuf :=
  let lval :=
    -(rho_u c x (jmin + 1) - rho_u c x jmin) / dz cfg jmin
      - (c.rho (jmin + 1) * Vx x (jmin + 1) + c.rho jmin * Vx x jmin)
  let r1 := if jmin = 0 then Function.update rsd (c_offset_U, jmin) lval else rsd
  let d1 := if jmin = 0 then Function.update diag (c_offset_U, jmin) 0 else diag
  let rval :=
    if cfg.usesLambda then rho_u c x jmax
    else rho_u c x jmax - rho_u c x (jmax - 1)
  let r2 := if jmax = cfg.points - 1 then Function.update r1 (c_offset_U, jmax) rval else r1
  let d2 := if jmax = cfg.points - 1 then Function.update d1 (c_offset_U, jmax) 0 else d1
  let j0 := max jmin 1
  let j1 := min jmax (cfg.points - 2)
  (fun p =>
      if p.1 = c_offset_U ∧ j0 ≤ p.2 ∧ p.2 ≤ j1 then contInterior cfg c x p.2
      else r2 p,
   fun p =>
      if p.1 = c_offset_U ∧ j0 ≤ p.2 ∧ p.2 ≤ j1 then 0 else d2 p)

/-- Interior momentum residual value (axisymmetric mode). -/
def momInterior (cfg : Config) (c : Cache) (x : Buf) (rdt : ℚ) (j : ℕ) : ℚ :=
  (shear cfg c x j - Lx x j - rho_u c x j * dVdz cfg x j
      - c.rho j * Vx x j * Vx x j) / c.rho j
    - rdt * (Vx x j - cfg.slast (c_offset_V, j))

/-- `StFlow::evalMomentum`. -/
def evalMomentum (cfg : Config) (c : Cache) (x : Buf) (rsd : Buf)
    (diag : DiagBuf) (rdt : ℚ) (jmin jmax : ℕ) : Buf × DiagBuf :=
  if !cfg.usesLambda then
    (fun p => if p.1 = c_offset_V ∧ jmin ≤ p.2 ∧ p.2 ≤ jmax then Vx x p.2 else rsd p,
     fun p => if p.1 = c_offset_V ∧ jmin ≤ p.2 ∧ p.2 ≤ jmax then 0 else diag p)
  else
    let r1 := if jmin = 0 then Function.update rsd (c_offset_V, jmin) (Vx x jmin) else rsd
    let r2 := if jmax = cfg.points - 1 then Function.update r1 (c_offset_V, jmax) (Vx x jmax) else r1
    let d2 := if jmax = cfg.points - 1 then Function.update diag (c_offset_V, jmax) 0 else diag
    let j0 := max jmin 1
    let j1 := min jmax (cfg.points - 2)
    (fun p =>
        if p.1 = c_offset_V ∧ j0 ≤ p.2 ∧ p.2 ≤ j1 then momInterior cfg c x rdt p.2
        else r2 p,
     fun p =>
        if p.1 = c_offset_V ∧ j0 ≤ p.2 ∧ p.2 ≤ j1 then 1 else d2 p)

/-- `StFlow::evalLambda`: when the eigenvalue is unused, force the component
to zero (algebraic); otherwise the left boundary ties lambda to the mass
flux, and every other point enforces spatial constancy.  Only the right
boundary write touches the classification buffer. -/
def evalLambda (cfg : Config) (c : Cache) (x : Buf) (rsd : Buf)
    (diag : DiagBuf) (jmin jmax : ℕ) : Buf × DiagBuf :=
  if !cfg.usesLambda then
    (fun p => if p.1 = c_offset_L ∧ jmin ≤ p.2 ∧ p.2 ≤ jmax then Lx x p.2 else rsd p,
     fun p => if p.1 = c_offset_L ∧ jmin ≤ p.2 ∧ p.2 ≤ jmax then 0 else diag p)
  else
    let r1 := if jmin = 0 then Function.update rsd (c_offset_L, jmin) (-rho_u c x jmin) else rsd
    let r2 :=
      if jmax = cfg.points - 1 then
        Function.update r1 (c_offset_L, jmax) (Lx x jmax - Lx x (jmax - 1))
      else r1
    let d2 := if jmax = cfg.points - 1 then Function.update diag (c_offset_L, jmax) 0 else diag
    let j0 := max jmin 1
    let j1 := min jmax (cfg.points - 2)
    (fun p =>
        if p.1 = c_offset_L ∧ j0 ≤ p.2 ∧ p.2 ≤ j1 then Lx x p.2 - Lx x (p.2 - 1)
        else r2 p,
     d2)

/-- `StFlow::grad_hk` at (k, j): upwinded enthalpy-gradient value written
into `m_dhk_dz` immediately before the energy residual reads it. -/
def grad_hk_val (cfg : Config) (c : Cache) (x : Buf) (k j : ℕ) : ℚ :=
  if 0 < ux x j then (c.hk (k, j) - c.hk (k, j - 1)) / dz cfg (j - 1)
  else (c.hk (k, j + 1) - c.hk (k, j)) / dz cfg j

/-- Species coupling sum of the enabled energy residual. -/
def energySum (cfg : Config) (c : Cache) (x : Buf) (j : ℕ) : ℚ :=
  ∑ k ∈ Finset.range cfg.nsp,
    (c.wdot (k, j) * c.hk (k, j)
      + (c.flux (k, j - 1) + c.flux (k, j)) / 2 * grad_hk_val cfg c x k j / cfg.wt k)

/-- Enabled interior energy residual. -/
def energyEnabled (cfg : Config) (c : Cache) (x : Buf) (rdt : ℚ) (j : ℕ) : ℚ :=
  (-c.cp j * rho_u c x j * dTdz cfg x j - divHeatFlux cfg c x j
      - energySum cfg c x j) / (c.rho j * c.cp j)
    - rdt * (Tx x j - cfg.slast (c_offset_T, j))
    - c.qdotRadiation j / (c.rho j * c.cp j)

/-- `StFlow::evalEnergy`: boundaries pin temperature to itself; interior
points branch on the per-point energy flag.  The enabled branch also
freshly writes the `m_dhk_dz` cache column it reads. -/
def evalEnergy (cfg : Config) (c : Cache) (x : Buf) (rsd : Buf)
    (diag : DiagBuf) (rdt : ℚ) (jmin jmax : ℕ) : Buf × DiagBuf × Cache :=
  let r1 := if jmin = 0 then Function.update rsd (c_offset_T, jmin) (Tx x jmin) else rsd
  let r2 := if jmax = cfg.points - 1 then Function.update r1 (c_offset_T, jmax) (Tx x jmax) else r1
  let j0 := max jmin 1
  let j1 := min jmax (cfg.points - 2)
  (fun p =>
      if p.1 = c_offset_T ∧ j0 ≤ p.2 ∧ p.2 ≤ j1 then
        if cfg.do_energy p.2 then energyEnabled cfg c x rdt p.2
        else Tx x p.2 - cfg.fixedtemp p.2
      else r2 p,
   fun p =>
      if p.1 = c_offset_T ∧ j0 ≤ p.2 ∧ p.2 ≤ j1 then
        if cfg.do_energy p.2 then 1 else 0
      else diag p,
   { c with
     dhk_dz := fun p =>
       if j0 ≤ p.2 ∧ p.2 ≤ j1 ∧ cfg.do_energy p.2 ∧ p.1 < cfg.nsp then
         grad_hk_val cfg c x p.1 p.2
       else c.dhk_dz p })

/-- `StFlow::evalElectricField`: the residual is the raw state value at
every window point; the classification buffer is untouched. -/
def evalElectricField (_cfg : Config) (_c : Cache) (x : Buf) (rsd : Buf)
    (diag : DiagBuf) (jmin jmax : ℕ) : Buf × DiagBuf :=
  (fun p =>
      if p.1 = c_offset_E ∧ jmin ≤ p.2 ∧ p.2 ≤ jmax then x (c_offset_E, p.2)
      else rsd p,
   diag)

/-- Interior species residual. -/
def speciesInterior (cfg : Config) (c : Cache) (x : Buf) (rdt : ℚ) (k j : ℕ) : ℚ :=
  (cfg.wt k * c.wdot (k, j) - rho_u c x j * dYdz cfg x k j
      - 2 * (c.flux (k, j) - c.flux (k, j - 1)) / (cfg.z (j + 1) - cfg.z (j - 1)))
    / c.rho j
    - rdt * (Yx x k j - cfg.slast (c_offset_Y + k, j))

/-- `StFlow::evalSpecies`: at each boundary, first the flux-balance
residuals for every species, then the excess-species entry is overwritten
with the normalization constraint; interior points get the full balance. -/
def evalSpecies (cfg : Config) (c : Cache) (x : Buf) (rsd : Buf)
    (diag : DiagBuf) (rdt : ℚ) (jmin jmax : ℕ) : Buf × DiagBuf :=
  let r1 :=
    if jmin = 0 then
      Function.update
        (fun p =>
          if c_offset_Y ≤ p.1 ∧ p.1 < c_offset_Y + cfg.nsp ∧ p.2 = jmin then
            -(c.flux (p.1 - c_offset_Y, jmin)
                + rho_u c x jmin * Yx x (p.1 - c_offset_Y) jmin)
          else rsd p)
        (c_offset_Y + c.kExcessLeft, jmin) (1 - sumY cfg x jmin)
    else rsd
  let r2 :=
    if jmax = cfg.points - 1 then
      Function.update
        (fun p =>
          if c_offset_Y ≤ p.1 ∧ p.1 < c_offset_Y + cfg.nsp ∧ p.2 = jmax then
            c.flux (p.1 - c_offset_Y, jmax - 1)
              + rho_u c x jmax * Yx x (p.1 - c_offset_Y) jmax
          else r1 p)
        (c_offset_Y + c.kExcessRight, jmax) (1 - sumY cfg x jmax)
    else r1
  let d2 :=
    if jmax = cfg.points - 1 then
      Function.update diag (c_offset_Y + c.kExcessRight, jmax) 0
    else diag
  let j0 := max jmin 1
  let j1 := min jmax (cfg.points - 2)
  (fun p =>
      if c_offset_Y ≤ p.1 ∧ p.1 < c_offset_Y + cfg.nsp ∧ j0 ≤ p.2 ∧ p.2 ≤ j1 then
        speciesInterior cfg c x rdt (p.1 - c_offset_Y) p.2
      else r2 p,
   fun p =>
      if c_offset_Y ≤ p.1 ∧ p.1 < c_offset_Y + cfg.nsp ∧ j0 ≤ p.2 ∧ p.2 ≤ j1 then 1
      else d2 p)

/-! ### Residual orchestration -/

/-- Result of one `eval` call: residual buffer, classification buffer, and
the work buffers as left behind. -/
structure EvalOut where
  rsd : Buf
  diag : DiagBuf
  cache : Cache

/-- The assembler sequence of `StFlow::eval`: the six equation assemblers
executed unconditionally in the fixed source order (continuity, momentum,
energy, lambda, electric field, species), threading the residual and
classification buffers and the work buffers. -/
def assemble (cfg : Config) (c : Cache) (x rsd : Buf) (diag : DiagBuf)
    (rdt : ℚ) (jmin jmax : ℕ) : EvalOut :=
  let rd1 := evalContinuity cfg c x rsd diag jmin jmax
  let rd2 := evalMomentum cfg c x rd1.1 rd1.2 rdt jmin jmax
  let rd3 := evalEnergy cfg c x rd2.1 rd2.2 rdt jmin jmax
  let rd4 := evalLambda cfg rd3.2.2 x rd3.1 rd3.2.1 jmin jmax
  let rd5 := evalElectricField cfg rd3.2.2 x rd4.1 rd4.2 jmin jmax
  let rd6 := evalSpecies cfg rd3.2.2 x rd5.1 rd5.2 rdt jmin jmax
  ⟨rd6.1, rd6.2, rd3.2.2⟩

/-- `StFlow::eval` (single-domain layout, so the domain starts at global
point 0): window selection, property refresh, optional radiation, then the
assemblers in fixed order. -/
def eval (cfg : Config) (cb : Collab) (jG : Option ℕ) (x : Buf) (rsd : Buf)
    (diag : DiagBuf) (rdt : ℚ) (c : Cache) : EvalOut :=
  let skip := match jG with
    | some j => decide (cfg.points < j)
    | none => false
  if skip then ⟨rsd, diag, c⟩
  else
    let jmin := match jG with
      | none => 0
      | some j => max j 1 - 1
    let jmax := match jG with
      | none => cfg.points - 1
      | some j => min (j + 1) (cfg.points - 1)
    let c1 := updateProperties cfg cb jG x jmin jmax c
    let c2 := if cfg.do_radiation then computeRadiation cfg c1 x jmin jmax else c1
    assemble cfg c2 x rsd diag rdt jmin jmax

/-! ### Administrative operations -/

/-- `StFlow::solveEnergyEqn`: enable the energy equation at one point
(`some j`) or everywhere (`none`); returns the updated flags and whether
`needJacUpdate` fired (it fires exactly when some touched flag was off). -/
def solveEnergyEqn (cfg : Config) (jo : Option ℕ) : Config × Bool :=
  match jo with
  | none =>
    ({ cfg with do_energy := fun i => if i < cfg.points then true else cfg.do_energy i },
     (List.range cfg.points).any fun i => !cfg.do_energy i)
  | some j =>
    ({ cfg with do_energy := Function.update cfg.do_energy j true },
     !cfg.do_energy j)

/-- `StFlow::_finalize`: rejects Soret without multicomponent transport as a
fatal configuration error; otherwise captures the fixed-temperature profile
(interpolating through the externally supplied `linearInterp` when the
energy equation is off and a stored profile exists), re-enables the energy
equation if it was on at the first point, and in free-flow mode relocates
the fixed point when the grid no longer matches it. -/
def _finalize (cfg : Config) (interp : ℚ → ℚ) (nzfix : ℕ) (x : Buf) :
    Except CtError Config :=
  if ¬cfg.do_multicomponent ∧ cfg.do_soret then
    .error (.cantera "StFlow::_finalize"
      "Thermal diffusion (the Soret effect) is enabled, and requires using a multicomponent transport model.")
  else
    let e := cfg.do_energy 0
    let cfg1 :=
      { cfg with
        fixedtemp := fun j =>
          if j < cfg.points then
            if e ∨ nzfix = 0 then Tx x j
            else interp ((cfg.z j - cfg.z 0) / (cfg.z (cfg.points - 1) - cfg.z 0))
          else cfg.fixedtemp j }
    let cfg2 := if e then (solveEnergyEqn cfg1 none).1 else cfg1
    if cfg.isFree ∧ cfg.tfixedDef then
      if ∃ j ∈ Finset.range cfg.points, cfg.z j = cfg.zfixed then .ok cfg2
      else
        match (List.range (cfg.points - 1)).find?
            (fun j => (Tx x j - cfg.tfixed) * (Tx x (j + 1) - cfg.tfixed) ≤ 0) with
        | some j => .ok { cfg2 with tfixed := Tx x (j + 1), zfixed := cfg.z (j + 1) }
        | none => .ok cfg2
    else .ok cfg2

/-- `StFlow::solveElectricField`: always the unsupported-capability signal. -/
def solveElectricField (_cfg : Config) (_j : Option ℕ) : Except CtError Unit :=
  .error (.notImplemented "StFlow::solveElectricField")

/-- `StFlow::fixElectricField`: always the unsupported-capability signal. -/
def fixElectricField (_cfg : Config) (_j : Option ℕ) : Except CtError Unit :=
  .error (.notImplemented "StFlow::fixElectricField")

/-- `StFlow::doElectricField`: always the unsupported-capability signal. -/
def doElectricField (_cfg : Config) (_j : ℕ) : Except CtError Bool :=
  .error (.notImplemented "StFlow::doElectricField")

/-! ### Component naming -/

/-- `StFlow::componentName`. -/
def componentName (cfg : Config) (speciesName : ℕ → String) (n : ℕ) : String :=
  if n = c_offset_U then "velocity"
  else if n = c_offset_V then "spread_rate"
  else if n = c_offset_T then "T"
  else if n = c_offset_L then "lambda"
  else if n = c_offset_E then "eField"
  else if c_offset_Y ≤ n ∧ n < c_offset_Y + cfg.nsp then speciesName (n - c_offset_Y)
  else "<unknown>"

/-- `StFlow::componentIndex`: the five fixed names, then a first-match scan
over the species block, then a fatal error. -/
def componentIndex (cfg : Config) (speciesName : ℕ → String) (name : String) :
    Except CtError ℕ :=
  if name = "velocity" then .ok c_offset_U
  else if name = "spread_rate" then .ok c_offset_V
  else if name = "T" then .ok c_offset_T
  else if name = "lambda" then .ok c_offset_L
  else if name = "eField" then .ok c_offset_E
  else
    match (List.range cfg.nsp).find?
        (fun k => componentName cfg speciesName (c_offset_Y + k) = name) with
    | some k => .ok (c_offset_Y + k)
    | none => .error (.cantera "StFlow1D::componentIndex" ("no component named " ++ name))

/-! ### Cache comparison up to the transport-coefficient fields -/

/-- Two cache states that agree everywhere except possibly on the
transport-coefficient buffers (`m_visc`, `m_tcon`, `m_diff`, `m_multidiff`,
`m_dthermal`) and the excess-species indices — exactly the data that a full
evaluation refreshes from scratch and a banded evaluation reuses. -/
def SameButTransport (c c2 : Cache) : Prop :=
  c.rho = c2.rho ∧ c.wtm = c2.wtm ∧ c.cp = c2.cp ∧ c.wdot = c2.wdot ∧
    c.hk = c2.hk ∧ c.dhk_dz = c2.dhk_dz ∧ c.flux = c2.flux ∧
    c.qdotRadiation = c2.qdotRadiation

/-! ### Concrete instances (for counterexamples and witnesses) -/

/-- All-zero solution buffer. -/
def x0 : Buf := fun _ => 0

/-- All-zero residual buffer. -/
def rsd0 : Buf := fun _ => 0

/-- All-zero classification buffer. -/
def diag0 : DiagBuf := fun _ => 0

/-- All-one classification buffer (stale differential marks). -/
def diagOne : DiagBuf := fun _ => 1

/-- Baseline configuration: two species, three points, unit grid spacing,
unstrained flow, mixture-averaged transport, all optional submodels off. -/
def cfg0 : Config where
  nsp := 2
  points := 3
  z := fun j => (j : ℚ)
  wt := fun _ => 1
  press := 1
  usesLambda := false
  isFree := false
  do_multicomponent := false
  do_soret := false
  do_radiation := false
  dovisc := false
  force_full_update := false
  do_energy := fun _ => false
  fixedtemp := fun _ => 0
  zfixed := 0
  tfixed := 0
  tfixedDef := false
  epsilon_left := 0
  epsilon_right := 0
  kRadiating0 := none
  kRadiating1 := none
  slast := fun _ => 0

/-- Baseline work buffers. -/
def cache0 : Cache where
  rho := fun _ => 1
  wtm := fun _ => 1
  cp := fun _ => 1
  visc := fun _ => 0
  tcon := fun _ => 0
  diff := fun _ => 0
  multidiff := fun _ => 0
  dthermal := fun _ => 0
  wdot := fun _ => 0
  hk := fun _ => 0
  dhk_dz := fun _ => 0
  flux := fun _ => 0
  qdotRadiation := fun _ => 0
  kExcessLeft := 0
  kExcessRight := 0

/-- Baseline collaborators: unit density, unit mean molecular weight, unit
specific heat, all transport and kinetic data zero. -/
def cb0 : Collab where
  density := fun _ => 1
  meanMW := fun _ => 1
  cp_mass := fun _ => 1
  viscosity := fun _ => 0
  thermalConductivity := fun _ => 0
  mixDiff := fun _ _ => 0
  multiDiff := fun _ _ _ => 0
  thermalDiff := fun _ _ => 0
  netProductionRates := fun _ _ => 0
  molarEnthalpies := fun _ _ => 0

/-- C1 counterexample configuration: one species, two points. -/
def cfgC1 : Config := { cfg0 with nsp := 1, points := 2 }

/-- C1 counterexample work buffers: unit diffusion coefficients. -/
def cacheC1 : Cache := { cache0 with diff := fun _ => 1 }

/-- C1 counterexample state: the single mass fraction is 2 at the left
point (sum of mass fractions 2, not 1) and 0 at the right point. -/
def xC1 : Buf := fun p => if p = (c_offset_Y, 0) then 2 else 0

/-- C2 counterexample prior grid buffers: three coordinates, all cells 42. -/
def gridCex : GridBufs := ⟨⟨3, fun _ => 42⟩, ⟨2, fun _ => 42⟩⟩

/-- C2 counterexample coordinates: 0, 1, 1/2 — not increasing at index 2. -/
def zCex : ℕ → ℚ := fun j => if j = 0 then 0 else if j = 1 then 1 else 1 / 2

/-- Project the grid buffers out of a `setupGrid` result. -/
def gridOfExcept : Except GridBufs GridBufs → GridBufs
  | .ok g => g
  | .error g => g

/-- Whether a `setupGrid` result is the thrown-error case. -/
def isGridError : Except GridBufs GridBufs → Bool
  | .ok _ => false
  | .error _ => true

/-- C4 witness configuration: four points, energy enabled only at point 2. -/
def cfgC4 : Config := { cfg0 with points := 4, do_energy := fun i => decide (i = 2) }

/-- C5 configuration: two species, two points, mixture-averaged transport. -/
def cfgC5 : Config := { cfg0 with points := 2 }

/-- C5 state: species 0 has mass fraction 1 at the left point; species 1 has
mass fraction 0 at the left point and -1 at the right point. -/
def xC5 : Buf := fun p =>
  if p = (c_offset_Y, 0) then 1 else if p = (c_offset_Y + 1, 1) then -1 else 0

/-- C5 first cache: zero cached diffusion coefficients. -/
def cacheC5A : Cache := cache0

/-- C5 second cache: same as the first except the cached diffusion
coefficient of species 1 on interval 0 is 1. -/
def cacheC5B : Cache := { cache0 with diff := fun i => if i = 1 then 1 else 0 }

/-- C6 witness configuration: Soret requested with mixture-averaged
transport. -/
def cfgSoret : Config := { cfg0 with do_soret := true }

/-- Trivial external interpolation collaborator. -/
def interp0 : ℚ → ℚ := fun _ => 0

/-- C3 witness work buffers: nonzero fluxes, excess species 1 on the left
and 0 on the right. -/
def cacheC3 : Cache :=
  { cache0 with flux := fun p => (p.1 : ℚ) + (p.2 : ℚ) + 1, kExcessLeft := 1 }

/-- C3 witness state: distinct values at every cell. -/
def xC3 : Buf := fun p => (p.1 : ℚ) + 2 * (p.2 : ℚ)

/-- C7 counterexample configuration: axisymmetric mode, one species, three
points. -/
def cfgC7 : Config := { cfg0 with usesLambda := true, nsp := 1 }

/-- C9 witness species names. -/
def snC9 : ℕ → String := fun k => if k = 0 then "H2" else "O2"

/-- C1 witness state: left-point mass fractions 1/2 and 1/2 (summing to 1),
right-point mass fractions 1 and 0. -/
def xW1 : Buf := fun p =>
  if p = (c_offset_Y, 0) then 1 / 2
  else if p = (c_offset_Y + 1, 0) then 1 / 2
  else if p = (c_offset_Y, 1) then 1 else 0

/-! # Theorems -/

/-- C1 (amended): on any interval of the window, under mixture-averaged
transport (no Soret term), the corrective term makes the species diffusive
mass fluxes sum to exactly zero PROVIDED the mass fractions at the
interval's left point sum to one; the correction is scaled by those mass
fractions, so the precondition cannot be dropped. -/
theorem mixFluxSumZero (cfg : Config) (c : Cache) (x : Buf) (j0 j1 j : ℕ)
    (hmc : cfg.do_multicomponent = false) (hs : cfg.do_soret = false)
    (h0 : j0 ≤ j) (h1 : j < j1) (hY : sumY cfg x j = 1) :
    ∑ k ∈ Finset.range cfg.nsp, (updateDiffFluxes cfg c x j0 j1).flux (k, j) = 0 := by
  have hsum : ∀ k ∈ Finset.range cfg.nsp,
      (updateDiffFluxes cfg c x j0 j1).flux (k, j)
        = mixFluxRaw cfg c x k j + mixFluxCorr cfg c x j * Yx x k j := by
    intro k hk
    rw [Finset.mem_range] at hk
    simp [updateDiffFluxes, hs, hmc, h0, h1, hk]
  rw [Finset.sum_congr rfl hsum, Finset.sum_add_distrib, ← Finset.mul_sum]
  have hYs : ∑ k ∈ Finset.range cfg.nsp, Yx x k j = sumY cfg x j := rfl
  rw [hYs, hY, mul_one, mixFluxCorr]
  ring

/-- C1 witness: a concrete two-species interval with left mass fractions
1/2 + 1/2 = 1 on which the corrected fluxes sum to zero. -/
theorem mixFluxSumZero_witness :
    sumY cfg0 xW1 0 = 1 ∧
      ∑ k ∈ Finset.range cfg0.nsp, (updateDiffFluxes cfg0 cacheC1 xW1 0 1).flux (k, 0) = 0 :=
  ⟨by norm_num [sumY, cfg0, Finset.sum_range_succ, Yx, xW1, c_offset_Y],
   mixFluxSumZero cfg0 cacheC1 xW1 0 1 0 rfl rfl (by decide) (by decide)
     (by norm_num [sumY, cfg0, Finset.sum_range_succ, Yx, xW1, c_offset_Y])⟩

/-- C1 counterexample: with a left-point mass-fraction sum of 2 (a single
species of mass fraction 2) and a nonzero gradient, the corrected fluxes
sum to -2, not zero — the claim fails without the sum-to-one
precondition. -/
theorem mixFluxSumZero_cex :
    ∑ k ∈ Finset.range cfgC1.nsp, (updateDiffFluxes cfgC1 cacheC1 xC1 0 1).flux (k, 0) ≠ 0 := by
  norm_num [updateDiffFluxes, mixFluxRaw, mixFluxCorr, multiFlux, Xx, Yx, Tx,
    xC1, cfgC1, cfg0, cacheC1, cache0, Finset.sum_range_succ, c_offset_Y, c_offset_T]

/-- The radiation write loop leaves every cell outside its index range
unchanged. -/
theorem radLoop_outside (cfg : Config) (c : Cache) (x : Buf) :
    ∀ (s j0 : ℕ) (q : ℕ → ℚ) (j : ℕ), j < j0 ∨ j0 + s ≤ j →
      radLoop cfg c x j0 s q j = q j := by
  intro s
  induction s with
  | zero => intro j0 q j _; rfl
  | succ n ih =>
    intro j0 q j h
    have hne : j ≠ j0 := by omega
    rw [radLoop, ih (j0 + 1) _ j (by omega), Function.update_noteq hne]

/-- The radiation write loop fills every cell inside its index range with
the freshly computed loss value. -/
theorem radLoop_inside (cfg : Config) (c : Cache) (x : Buf) :
    ∀ (s j0 : ℕ) (q : ℕ → ℚ) (j : ℕ), j0 ≤ j → j < j0 + s →
      radLoop cfg c x j0 s q j = radValue cfg c x j := by
  intro s
  induction s with
  | zero => intro j0 q j h1 h2; omega
  | succ n ih =>
    intro j0 q j h1 h2
    rcases Nat.eq_or_lt_of_le h1 with heq | hlt
    · rw [radLoop, radLoop_outside cfg c x n (j0 + 1) _ j (by omega), ← heq,
        Function.update_same]
    · rw [radLoop, ih (j0 + 1) _ j (by omega) (by omega)]

/-- C10: `computeRadiation` over the window `[jmin, jmax]` writes the
radiative-loss cells only at indices `jmin` through `jmax - 1`; the cell at
`jmax` (in particular the last grid point of a full-domain evaluation) and
every cell outside the window keep their prior values. -/
theorem computeRadiation_frame (cfg : Config) (c : Cache) (x : Buf)
    (jmin jmax j : ℕ) (h : j < jmin ∨ jmax ≤ j) :
    (computeRadiation cfg c x jmin jmax).qdotRadiation j = c.qdotRadiation j := by
  show radLoop cfg c x jmin (jmax - jmin) c.qdotRadiation j = c.qdotRadiation j
  exact radLoop_outside cfg c x (jmax - jmin) jmin c.qdotRadiation j (by omega)

/-- C10 witness: a full-window radiation pass on the three-point baseline
domain leaves the cell of the last grid point (index 2) unchanged. -/
theorem computeRadiation_frame_witness :
    (computeRadiation cfg0 cache0 x0 0 2).qdotRadiation 2 = cache0.qdotRadiation 2 :=
  computeRadiation_frame cfg0 cache0 x0 0 2 2 (Or.inr (by decide))

/-- C8: the electric-field residual is the raw state value at every window
point, and each of the solving/fixing/query operations signals the distinct
unsupported-capability condition (`NotImplementedError`), not a generic
configuration error. -/
theorem electricFieldPlaceholder (cfg : Config) (c : Cache) (x rsd : Buf)
    (diag : DiagBuf) (jmin jmax j : ℕ) (h1 : jmin ≤ j) (h2 : j ≤ jmax) :
    (evalElectricField cfg c x rsd diag jmin jmax).1 (c_offset_E, j) = x (c_offset_E, j)
      ∧ (∀ jo, solveElectricField cfg jo
          = .error (.notImplemented "StFlow::solveElectricField"))
      ∧ (∀ jo, fixElectricField cfg jo
          = .error (.notImplemented "StFlow::fixElectricField"))
      ∧ (∀ jj, doElectricField cfg jj
          = .error (.notImplemented "StFlow::doElectricField")) := by
  refine ⟨?_, fun _ => rfl, fun _ => rfl, fun _ => rfl⟩
  simp [evalElectricField, h1, h2]

/-- C8 witness: the electric-field placeholder behaviour at point 1 of the
baseline domain. -/
theorem electricFieldPlaceholder_witness :
    (evalElectricField cfg0 cache0 x0 rsd0 diag0 0 2).1 (c_offset_E, 1) = x0 (c_offset_E, 1)
      ∧ solveElectricField cfg0 none
          = .error (.notImplemented "StFlow::solveElectricField") :=
  ⟨(electricFieldPlaceholder cfg0 cache0 x0 rsd0 diag0 0 2 1 (by decide) (by decide)).1,
   (electricFieldPlaceholder cfg0 cache0 x0 rsd0 diag0 0 2 1 (by decide) (by decide)).2.1 none⟩

/-- C6: finalizing with Soret enabled but mixture-averaged (not
multicomponent) transport fails with the configuration error; with
multicomponent transport or with Soret disabled the finalize operation
returns normally. -/
theorem finalizeSoretCheck (cfg : Config) (interp : ℚ → ℚ) (nzfix : ℕ) (x : Buf) :
    (cfg.do_multicomponent = false → cfg.do_soret = true →
        _finalize cfg interp nzfix x = .error (.cantera "StFlow::_finalize"
          "Thermal diffusion (the Soret effect) is enabled, and requires using a multicomponent transport model."))
      ∧ (cfg.do_multicomponent = true ∨ cfg.do_soret = false →
          ∃ cfg2, _finalize cfg interp nzfix x = .ok cfg2) := by
  constructor
  · intro hm hs
    rw [_finalize, if_pos (by simp [hm, hs])]
  · intro h
    rw [_finalize, if_neg (by rcases h with h | h <;> simp [h])]
    dsimp only
    split
    · split
      · exact ⟨_, rfl⟩
      · split <;> exact ⟨_, rfl⟩
    · exact ⟨_, rfl⟩

/-- C6 witness: the Soret/mixture-averaged combination errors on a concrete
domain, and the baseline domain (Soret off) finalizes normally. -/
theorem finalizeSoretCheck_witness :
    _finalize cfgSoret interp0 0 x0 = .error (.cantera "StFlow::_finalize"
        "Thermal diffusion (the Soret effect) is enabled, and requires using a multicomponent transport model.")
      ∧ ∃ cfg2, _finalize cfg0 interp0 0 x0 = .ok cfg2 :=
  ⟨(finalizeSoretCheck cfgSoret interp0 0 x0).1 rfl rfl,
   (finalizeSoretCheck cfg0 interp0 0 x0).2 (Or.inr rfl)⟩

/-- On a strictly increasing tail, the `setupGrid` loop succeeds; the cells
it visits receive the new coordinates and widths, and every other cell is
untouched. -/
theorem setupGridAux_ok (z : ℕ → ℚ) :
    ∀ (steps j : ℕ) (g : GridBufs), 1 ≤ j →
      (∀ i, j ≤ i → i < j + steps → z (i - 1) < z i) →
      ∃ g2, setupGridAux z j steps g = .ok g2
        ∧ (∀ i, i < j ∨ j + steps ≤ i → g2.m_z.val i = g.m_z.val i)
        ∧ (∀ i, j ≤ i → i < j + steps → g2.m_z.val i = z i)
        ∧ (∀ i, i + 1 < j ∨ j + steps ≤ i + 1 → g2.m_dz.val i = g.m_dz.val i)
        ∧ (∀ i, j ≤ i + 1 → i + 1 < j + steps → g2.m_dz.val i = z (i + 1) - z i) := by
  intro steps
  induction steps with
  | zero =>
    intro j g hj _
    exact ⟨g, rfl, fun i _ => rfl, fun i h1 h2 => by omega, fun i _ => rfl,
      fun i h1 h2 => by omega⟩
  | succ n ih =>
    intro j g hj hinc
    have hz : z (j - 1) < z j := hinc j le_rfl (by omega)
    obtain ⟨g2, heq, hfz, hvz, hfd, hvd⟩ :=
      ih (j + 1) ⟨dvSet g.m_z j (z j), dvSet g.m_dz (j - 1) (z j - z (j - 1))⟩
        (by omega) (fun i h1 h2 => hinc i (by omega) (by omega))
    refine ⟨g2, ?_, ?_, ?_, ?_, ?_⟩
    · rw [setupGridAux, if_neg (not_le.mpr hz)]
      exact heq
    · intro i hi
      rw [hfz i (by omega)]
      exact Function.update_noteq (by omega) _ _
    · intro i h1 h2
      rcases Nat.eq_or_lt_of_le h1 with heq1 | hlt1
      · rw [hfz i (Or.inl (by omega)), ← heq1]
        exact Function.update_same _ _ _
      · exact hvz i hlt1 (by omega)
    · intro i hi
      rw [hfd i (by omega)]
      exact Function.update_noteq (by omega) _ _
    · intro i h1 h2
      rcases Nat.eq_or_lt_of_le h1 with heq1 | hlt1
      · have hi : i = j - 1 := by omega
        subst hi
        rw [hfd (j - 1) (Or.inl (by omega)), ← heq1]
        exact Function.update_same _ _ _
      · exact hvd i hlt1 (by omega)

/-- If some visited pair is non-increasing, the `setupGrid` loop throws. -/
theorem setupGridAux_err (z : ℕ → ℚ) :
    ∀ (steps j : ℕ) (g : GridBufs),
      (∃ i, j ≤ i ∧ i < j + steps ∧ z i ≤ z (i - 1)) →
      ∃ g2, setupGridAux z j steps g = .error g2 := by
  intro steps
  induction steps with
  | zero =>
    intro j g ⟨i, h1, h2, _⟩
    omega
  | succ n ih =>
    intro j g ⟨i, h1, h2, h3⟩
    by_cases hj : z j ≤ z (j - 1)
    · exact ⟨g, by rw [setupGridAux, if_pos hj]⟩
    · have hij : i ≠ j := fun h => hj (h ▸ h3)
      obtain ⟨g2, heq⟩ :=
        ih (j + 1) ⟨dvSet g.m_z j (z j), dvSet g.m_dz (j - 1) (z j - z (j - 1))⟩
          ⟨i, by omega, by omega, h3⟩
      exact ⟨g2, by rw [setupGridAux, if_neg hj]; exact heq⟩

/-- C2 (amended): for a strictly increasing coordinate sequence `setupGrid`
succeeds, the stored coordinates are the inputs, and every derived interval
width equals the corresponding successive difference; for a non-increasing
sequence it throws a configuration error — but only after `resize` and the
writes before the offending index have already been applied, so the buffers
are NOT left unchanged (see the counterexample). -/
theorem setupGrid_spec (g : GridBufs) (n : ℕ) (z : ℕ → ℚ) :
    ((∀ j, 1 ≤ j → j < n → z (j - 1) < z j) →
        ∃ g2, setupGrid g n z = .ok g2
          ∧ (∀ j, j < n → g2.m_z.val j = z j)
          ∧ (∀ j, 1 ≤ j → j < n → g2.m_dz.val (j - 1) = z j - z (j - 1)))
      ∧ ((∃ j, 1 ≤ j ∧ j < n ∧ z j ≤ z (j - 1)) →
          ∃ g2, setupGrid g n z = .error g2) := by
  constructor
  · intro hinc
    obtain ⟨g2, heq, hfz, hvz, _, hvd⟩ :=
      setupGridAux_ok z (n - 1) 1
        ⟨dvSet (resizeGrid g n).m_z 0 (z 0), (resizeGrid g n).m_dz⟩
        le_rfl (fun i h1 h2 => hinc i h1 (by omega))
    refine ⟨g2, heq, ?_, ?_⟩
    · intro j hj
      rcases Nat.eq_zero_or_pos j with h0 | h1
      · subst h0
        rw [hfz 0 (Or.inl one_pos)]
        exact Function.update_same 0 (z 0) (resizeGrid g n).m_z.val
      · exact hvz j h1 (by omega)
    · intro j h1 h2
      have := hvd (j - 1) (by omega) (by omega)
      rwa [Nat.sub_add_cancel h1] at this
  · intro ⟨j, h1, h2, h3⟩
    exact setupGridAux_err z (n - 1) 1
      ⟨dvSet (resizeGrid g n).m_z 0 (z 0), (resizeGrid g n).m_dz⟩
      ⟨j, h1, by omega, h3⟩

/-- C2 witness: `setupGrid` on the increasing sequence 0, 1, 2 over the
prior buffers of the counterexample succeeds with the expected widths, and
on the non-increasing sequence 0, 1, 1/2 it throws. -/
theorem setupGrid_spec_witness :
    (∃ g2, setupGrid gridCex 3 (fun j => (j : ℚ)) = .ok g2
        ∧ (∀ j, j < 3 → g2.m_z.val j = (j : ℚ))
        ∧ (∀ j, 1 ≤ j → j < 3 → g2.m_dz.val (j - 1) = (j : ℚ) - ((j - 1 : ℕ) : ℚ)))
      ∧ (∃ g2, setupGrid gridCex 3 zCex = .error g2) :=
  ⟨(setupGrid_spec gridCex 3 (fun j => (j : ℚ))).1
      (by intro j h1 h2; interval_cases j <;> norm_num),
   (setupGrid_spec gridCex 3 zCex).2 ⟨2, by norm_num, by norm_num, by norm_num [zCex]⟩⟩

/-- C2 counterexample: on the non-increasing sequence 0, 1, 1/2 the
operation fails, yet the grid buffers have changed: the second coordinate
cell now holds the new value 1 where the prior buffers held 42 — the
failed `setupGrid` partially applies the new grid. -/
theorem setupGrid_partial_cex :
    isGridError (setupGrid gridCex 3 zCex) = true
      ∧ (gridOfExcept (setupGrid gridCex 3 zCex)).m_z.val 1 = 1
      ∧ gridCex.m_z.val 1 = 42 := by
  norm_num [setupGrid, setupGridAux, resizeGrid, dvResize, dvSet, gridCex, zCex,
    gridOfExcept, isGridError, Function.update]

/-- A first-match scan over `[0, n)` returns the first index satisfying the
predicate. -/
theorem find?_range_first (p : ℕ → Bool) :
    ∀ (n m : ℕ), m < n → p m = true → (∀ i, i < m → p i = false) →
      (List.range n).find? p = some m := by
  intro n
  induction n with
  | zero => intro m h _ _; omega
  | succ n ih =>
    intro m hm hpm hlt
    rw [List.range_succ, List.find?_append]
    rcases Nat.lt_or_ge m n with h | h
    · rw [ih m h hpm hlt]
      rfl
    · have hmn : m = n := by omega
      subst hmn
      have hnone : (List.range m).find? p = none :=
        List.find?_eq_none.mpr fun x hx => by
          rw [List.mem_range] at hx
          simp [hlt x hx]
      rw [hnone]
      simp [List.find?, hpm]

/-- The species block of `componentName` returns the species name. -/
theorem componentName_species (cfg : Config) (sn : ℕ → String) (k : ℕ)
    (hk : k < cfg.nsp) :
    componentName cfg sn (c_offset_Y + k) = sn k := by
  simp only [componentName, c_offset_U, c_offset_V, c_offset_T, c_offset_L,
    c_offset_E, c_offset_Y]
  rw [if_neg (by omega), if_neg (by omega), if_neg (by omega), if_neg (by omega),
    if_neg (by omega), if_pos ⟨by omega, by omega⟩, Nat.add_sub_cancel_left]

/-- C9: when species names are pairwise distinct and distinct from the five
fixed component names, `componentIndex` inverts `componentName` on every
valid component index, and any unknown name raises the configuration
error. -/
theorem componentNameIndexRoundTrip (cfg : Config) (sn : ℕ → String)
    (hinj : ∀ k1 k2, k1 < cfg.nsp → k2 < cfg.nsp → sn k1 = sn k2 → k1 = k2)
    (hfree : ∀ k, k < cfg.nsp → sn k ≠ "velocity" ∧ sn k ≠ "spread_rate"
        ∧ sn k ≠ "T" ∧ sn k ≠ "lambda" ∧ sn k ≠ "eField") :
    (∀ n, n < c_offset_Y + cfg.nsp →
        componentIndex cfg sn (componentName cfg sn n) = .ok n)
      ∧ (∀ name, name ≠ "velocity" → name ≠ "spread_rate" → name ≠ "T" →
          name ≠ "lambda" → name ≠ "eField" → (∀ k, k < cfg.nsp → sn k ≠ name) →
          componentIndex cfg sn name
            = .error (.cantera "StFlow1D::componentIndex"
                ("no component named " ++ name))) := by
  constructor
  · intro n hn
    rcases Nat.lt_or_ge n 5 with hlt5 | hge5
    · interval_cases n <;> rfl
    · have hn' : n < 5 + cfg.nsp := hn
      have hm : n - 5 < cfg.nsp := by omega
      have hn5 : n = c_offset_Y + (n - 5) := by
        show n = 5 + (n - 5)
        omega
      have hname := componentName_species cfg sn (n - 5) hm
      rw [← hn5] at hname
      rw [hname]
      obtain ⟨f1, f2, f3, f4, f5⟩ := hfree (n - 5) hm
      have hpm : (fun k =>
          decide (componentName cfg sn (c_offset_Y + k) = sn (n - 5))) (n - 5)
            = true := by
        simp only [decide_eq_true_eq]
        exact componentName_species cfg sn (n - 5) hm
      have hplt : ∀ i, i < n - 5 →
          (fun k =>
            decide (componentName cfg sn (c_offset_Y + k) = sn (n - 5))) i
              = false := by
        intro i hi
        have hik : i < cfg.nsp := by omega
        simp only [decide_eq_false_iff_not]
        rw [componentName_species cfg sn i hik]
        exact fun hcontra => absurd (hinj i (n - 5) hik hm hcontra) (by omega)
      simp only [componentIndex]
      rw [if_neg f1, if_neg f2, if_neg f3, if_neg f4, if_neg f5,
        find?_range_first _ cfg.nsp (n - 5) hm hpm hplt]
      exact congrArg Except.ok hn5.symm
  · intro name g1 g2 g3 g4 g5 gsp
    simp only [componentIndex]
    rw [if_neg g1, if_neg g2, if_neg g3, if_neg g4, if_neg g5,
      List.find?_eq_none.mpr fun k hk => by
        rw [List.mem_range] at hk
        simp [componentName_species cfg sn k hk, gsp k hk]]

/-- C9 witness: on the baseline two-species domain with names H2 and O2,
index 6 (species O2) round-trips, and the unknown name N2 errors. -/
theorem componentNameIndexRoundTrip_witness :
    componentIndex cfg0 snC9 (componentName cfg0 snC9 6) = .ok 6
      ∧ componentIndex cfg0 snC9 "N2"
          = .error (.cantera "StFlow1D::componentIndex"
              ("no component named " ++ "N2")) := by
  have h := componentNameIndexRoundTrip cfg0 snC9
    (by
      intro k1 k2 h1 h2 heq
      have h1' : k1 < 2 := h1
      have h2' : k2 < 2 := h2
      interval_cases k1 <;> interval_cases k2 <;> simp_all [snC9])
    (by
      intro k hk
      have hk' : k < 2 := hk
      interval_cases k <;> simp [snC9])
  exact ⟨h.1 6 (by decide), h.2 "N2" (by decide) (by decide) (by decide)
    (by decide) (by decide)
    (by
      intro k hk
      have hk' : k < 2 := hk
      interval_cases k <;> simp [snC9])⟩

/-- C4: at an interior window point the energy residual is the
fixed-profile deviation with algebraic classification when the per-point
energy flag is off, and the differential energy balance with differential
classification when it is on; enabling the equation at a point (or at all
points) whose flag was off fires the Jacobian-invalidation signal. -/
theorem energyToggle (cfg : Config) (c : Cache) (x rsd : Buf) (diag : DiagBuf)
    (rdt : ℚ) (jmin jmax j : ℕ)
    (hj0 : max jmin 1 ≤ j) (hj1 : j ≤ min jmax (cfg.points - 2)) :
    ((cfg.do_energy j = false →
        (evalEnergy cfg c x rsd diag rdt jmin jmax).1 (c_offset_T, j)
            = Tx x j - cfg.fixedtemp j
          ∧ (evalEnergy cfg c x rsd diag rdt jmin jmax).2.1 (c_offset_T, j) = 0)
      ∧ (cfg.do_energy j = true →
          (evalEnergy cfg c x rsd diag rdt jmin jmax).1 (c_offset_T, j)
              = energyEnabled cfg c x rdt j
            ∧ (evalEnergy cfg c x rsd diag rdt jmin jmax).2.1 (c_offset_T, j) = 1))
      ∧ (∀ p, p < cfg.points → cfg.do_energy p = false →
          (solveEnergyEqn cfg (some p)).2 = true)
      ∧ ((∃ p, p < cfg.points ∧ cfg.do_energy p = false) →
          (solveEnergyEqn cfg none).2 = true) := by
  refine ⟨⟨?_, ?_⟩, ?_, ?_⟩
  · intro hoff
    constructor
    · show (if c_offset_T = c_offset_T ∧ max jmin 1 ≤ j ∧ j ≤ min jmax (cfg.points - 2)
          then if cfg.do_energy j = true then energyEnabled cfg c x rdt j
               else Tx x j - cfg.fixedtemp j
          else _) = Tx x j - cfg.fixedtemp j
      rw [if_pos ⟨rfl, hj0, hj1⟩, if_neg (by simp [hoff])]
    · show (if c_offset_T = c_offset_T ∧ max jmin 1 ≤ j ∧ j ≤ min jmax (cfg.points - 2)
          then if cfg.do_energy j = true then (1 : ℤ) else 0
          else _) = 0
      rw [if_pos ⟨rfl, hj0, hj1⟩, if_neg (by simp [hoff])]
  · intro hon
    constructor
    · show (if c_offset_T = c_offset_T ∧ max jmin 1 ≤ j ∧ j ≤ min jmax (cfg.points - 2)
          then if cfg.do_energy j = true then energyEnabled cfg c x rdt j
               else Tx x j - cfg.fixedtemp j
          else _) = energyEnabled cfg c x rdt j
      rw [if_pos ⟨rfl, hj0, hj1⟩, if_pos hon]
    · show (if c_offset_T = c_offset_T ∧ max jmin 1 ≤ j ∧ j ≤ min jmax (cfg.points - 2)
          then if cfg.do_energy j = true then (1 : ℤ) else 0
          else _) = 1
      rw [if_pos ⟨rfl, hj0, hj1⟩, if_pos hon]
  · intro p _ hoff
    simp [solveEnergyEqn, hoff]
  · intro ⟨p, hp, hoff⟩
    simp only [solveEnergyEqn, List.any_eq_true]
    exact ⟨p, List.mem_range.mpr hp, by simp [hoff]⟩

/-- C4 witness: on a four-point domain with the energy equation enabled
only at point 2, point 1 gets the fixed-profile residual with algebraic
classification, point 2 gets the differential balance, and enabling point 1
fires the Jacobian-invalidation signal. -/
theorem energyToggle_witness :
    (evalEnergy cfgC4 cache0 x0 rsd0 diag0 0 0 3).1 (c_offset_T, 1)
        = Tx x0 1 - cfgC4.fixedtemp 1
      ∧ (evalEnergy cfgC4 cache0 x0 rsd0 diag0 0 0 3).2.1 (c_offset_T, 1) = 0
      ∧ (evalEnergy cfgC4 cache0 x0 rsd0 diag0 0 0 3).2.1 (c_offset_T, 2) = 1
      ∧ (solveEnergyEqn cfgC4 (some 1)).2 = true :=
  ⟨((energyToggle cfgC4 cache0 x0 rsd0 diag0 0 0 3 1 (by decide) (by decide)).1.1 rfl).1,
   ((energyToggle cfgC4 cache0 x0 rsd0 diag0 0 0 3 1 (by decide) (by decide)).1.1 rfl).2,
   ((energyToggle cfgC4 cache0 x0 rsd0 diag0 0 0 3 2 (by decide) (by decide)).1.2 rfl).2,
   (energyToggle cfgC4 cache0 x0 rsd0 diag0 0 0 3 1 (by decide) (by decide)).2.1
     1 (by decide) rfl⟩

/-- C3: whenever the evaluation window contains a boundary point, the
species residuals written at that boundary consist of exactly one
normalization-constraint residual `1 - sum of mass fractions` at the
excess-species index, every other species getting the flux-balance form
combining the boundary diffusive flux with the convective term; the right
excess entry is also marked algebraic. -/
theorem speciesBoundaryNormalization (cfg : Config) (c : Cache) (x rsd : Buf)
    (diag : DiagBuf) (rdt : ℚ) (jmin jmax : ℕ) (hpts : 2 ≤ cfg.points) :
    ((jmin = 0 → c.kExcessLeft < cfg.nsp →
        (evalSpecies cfg c x rsd diag rdt jmin jmax).1
            (c_offset_Y + c.kExcessLeft, 0) = 1 - sumY cfg x 0
          ∧ ∀ k, k < cfg.nsp → k ≠ c.kExcessLeft →
              (evalSpecies cfg c x rsd diag rdt jmin jmax).1 (c_offset_Y + k, 0)
                = -(c.flux (k, 0) + rho_u c x 0 * Yx x k 0))
      ∧ (jmax = cfg.points - 1 → c.kExcessRight < cfg.nsp →
          (evalSpecies cfg c x rsd diag rdt jmin jmax).1
              (c_offset_Y + c.kExcessRight, jmax) = 1 - sumY cfg x jmax
            ∧ (evalSpecies cfg c x rsd diag rdt jmin jmax).2
                (c_offset_Y + c.kExcessRight, jmax) = 0
            ∧ ∀ k, k < cfg.nsp → k ≠ c.kExcessRight →
                (evalSpecies cfg c x rsd diag rdt jmin jmax).1 (c_offset_Y + k, jmax)
                  = c.flux (k, jmax - 1) + rho_u c x jmax * Yx x k jmax)) := by
  constructor
  · intro h0 hkl
    subst h0
    have hint : ∀ m : ℕ, ¬(c_offset_Y ≤ c_offset_Y + m
        ∧ c_offset_Y + m < c_offset_Y + cfg.nsp
        ∧ max 0 1 ≤ 0 ∧ 0 ≤ min jmax (cfg.points - 2)) := by
      rintro m ⟨-, -, h3, -⟩
      omega
    constructor
    · simp only [evalSpecies]
      rw [if_neg (hint c.kExcessLeft)]
      by_cases hc : jmax = cfg.points - 1
      · rw [if_pos hc,
          Function.update_noteq
            (by rw [Ne, Prod.mk.injEq]; rintro ⟨-, h⟩; omega) _ _,
          if_neg (by rintro ⟨-, -, h⟩; omega), if_pos trivial]
        exact Function.update_same _ _ _
      · rw [if_neg hc, if_pos trivial]
        exact Function.update_same _ _ _
    · intro k hk hne
      simp only [evalSpecies]
      rw [if_neg (hint k)]
      have hupd : Function.update
            (fun p => if c_offset_Y ≤ p.1 ∧ p.1 < c_offset_Y + cfg.nsp ∧ p.2 = 0 then
                -(c.flux (p.1 - c_offset_Y, 0) + rho_u c x 0 * Yx x (p.1 - c_offset_Y) 0)
              else rsd p)
            (c_offset_Y + c.kExcessLeft, 0) (1 - sumY cfg x 0) (c_offset_Y + k, 0)
          = -(c.flux (k, 0) + rho_u c x 0 * Yx x k 0) := by
        rw [Function.update_noteq (by rw [Ne, Prod.mk.injEq]; rintro ⟨h, -⟩; omega) _ _,
          if_pos ⟨Nat.le_add_right _ _, Nat.add_lt_add_left hk _, rfl⟩,
          Nat.add_sub_cancel_left]
      by_cases hc : jmax = cfg.points - 1
      · rw [if_pos hc,
          Function.update_noteq
            (by rw [Ne, Prod.mk.injEq]; rintro ⟨-, h⟩; omega) _ _,
          if_neg (by rintro ⟨-, -, h⟩; omega), if_pos trivial]
        exact hupd
      · rw [if_neg hc, if_pos trivial]
        exact hupd
  · intro hr hkr
    have hint : ∀ m : ℕ, ¬(c_offset_Y ≤ c_offset_Y + m
        ∧ c_offset_Y + m < c_offset_Y + cfg.nsp
        ∧ max jmin 1 ≤ jmax ∧ jmax ≤ min jmax (cfg.points - 2)) := by
      rintro m ⟨-, -, -, h4⟩
      omega
    refine ⟨?_, ?_, ?_⟩
    · simp only [evalSpecies]
      rw [if_neg (hint c.kExcessRight), if_pos hr]
      exact Function.update_same _ _ _
    · simp only [evalSpecies]
      rw [if_neg (hint c.kExcessRight), if_pos hr]
      exact Function.update_same _ _ _
    · intro k hk hne
      simp only [evalSpecies]
      rw [if_neg (hint k), if_pos hr,
        Function.update_noteq (by rw [Ne, Prod.mk.injEq]; rintro ⟨h, -⟩; omega) _ _,
        if_pos ⟨Nat.le_add_right _ _, Nat.add_lt_add_left hk _, rfl⟩,
        Nat.add_sub_cancel_left]

/-- C3 witness: on the baseline three-point two-species domain with left
excess species 1 and right excess species 0, both boundary residual sets
have the stated shape. -/
theorem speciesBoundaryNormalization_witness :
    (evalSpecies cfg0 cacheC3 xC3 rsd0 diag0 0 0 2).1 (c_offset_Y + 1, 0)
        = 1 - sumY cfg0 xC3 0
      ∧ (evalSpecies cfg0 cacheC3 xC3 rsd0 diag0 0 0 2).1 (c_offset_Y + 0, 0)
          = -(cacheC3.flux (0, 0) + rho_u cacheC3 xC3 0 * Yx xC3 0 0)
      ∧ (evalSpecies cfg0 cacheC3 xC3 rsd0 diag0 0 0 2).1 (c_offset_Y + 0, 2)
          = 1 - sumY cfg0 xC3 2
      ∧ (evalSpecies cfg0 cacheC3 xC3 rsd0 diag0 0 0 2).2 (c_offset_Y + 0, 2) = 0
      ∧ (evalSpecies cfg0 cacheC3 xC3 rsd0 diag0 0 0 2).1 (c_offset_Y + 1, 2)
          = cacheC3.flux (1, 1) + rho_u cacheC3 xC3 2 * Yx xC3 1 2 :=
  ⟨((speciesBoundaryNormalization cfg0 cacheC3 xC3 rsd0 diag0 0 0 2
      (by decide)).1 rfl (by decide)).1,
   ((speciesBoundaryNormalization cfg0 cacheC3 xC3 rsd0 diag0 0 0 2
      (by decide)).1 rfl (by decide)).2 0 (by decide) (by decide),
   ((speciesBoundaryNormalization cfg0 cacheC3 xC3 rsd0 diag0 0 0 2
      (by decide)).2 rfl (by decide)).1,
   ((speciesBoundaryNormalization cfg0 cacheC3 xC3 rsd0 diag0 0 0 2
      (by decide)).2 rfl (by decide)).2.1,
   ((speciesBoundaryNormalization cfg0 cacheC3 xC3 rsd0 diag0 0 0 2
      (by decide)).2 rfl (by decide)).2.2 1 (by decide) (by decide)⟩

/-- C7 (amended): in axisymmetric mode the lambda residual is minus the
mass flux at the left boundary and the backward difference
`lambda(j) - lambda(j-1)` at every other point, but the algebraic mark
(diag = 0) is written only at the right boundary: at the left boundary and
at interior points `evalLambda` leaves the classification cell untouched. -/
theorem lambdaEquation (cfg : Config) (c : Cache) (x rsd : Buf) (diag : DiagBuf)
    (jmin jmax : ℕ) (hUL : cfg.usesLambda = true) (hpts : 2 ≤ cfg.points) :
    ((jmin = 0 →
        (evalLambda cfg c x rsd diag jmin jmax).1 (c_offset_L, 0) = -rho_u c x 0)
      ∧ (∀ j, max jmin 1 ≤ j → j ≤ min jmax (cfg.points - 2) →
          (evalLambda cfg c x rsd diag jmin jmax).1 (c_offset_L, j)
            = Lx x j - Lx x (j - 1))
      ∧ (jmax = cfg.points - 1 →
          (evalLambda cfg c x rsd diag jmin jmax).1 (c_offset_L, jmax)
              = Lx x jmax - Lx x (jmax - 1)
            ∧ (evalLambda cfg c x rsd diag jmin jmax).2 (c_offset_L, jmax) = 0)
      ∧ (∀ p : ℕ × ℕ, p ≠ (c_offset_L, cfg.points - 1) →
          (evalLambda cfg c x rsd diag jmin jmax).2 p = diag p)) := by
  have hB : (!cfg.usesLambda) = false := by rw [hUL]; rfl
  refine ⟨?_, ?_, ?_, ?_⟩
  · intro h0
    subst h0
    simp only [evalLambda, hB, Bool.false_eq_true, if_false]
    rw [if_neg (by rintro ⟨-, h2, -⟩; omega)]
    by_cases hc : jmax = cfg.points - 1
    · rw [if_pos hc,
        Function.update_noteq (by rw [Ne, Prod.mk.injEq]; rintro ⟨-, h⟩; omega) _ _,
        if_pos trivial]
      exact Function.update_same _ _ _
    · rw [if_neg hc, if_pos trivial]
      exact Function.update_same _ _ _
  · intro j hj0 hj1
    simp only [evalLambda, hB, Bool.false_eq_true, if_false]
    rw [if_pos ⟨trivial, hj0, hj1⟩]
  · intro hc
    constructor
    · simp only [evalLambda, hB, Bool.false_eq_true, if_false]
      rw [if_neg (by rintro ⟨-, -, h3⟩; omega), if_pos hc]
      exact Function.update_same _ _ _
    · simp only [evalLambda, hB, Bool.false_eq_true, if_false]
      rw [if_pos hc]
      exact Function.update_same _ _ _
  · intro p hp
    simp only [evalLambda, hB, Bool.false_eq_true, if_false]
    by_cases hc : jmax = cfg.points - 1
    · rw [if_pos hc]
      exact Function.update_noteq (by rw [hc]; exact hp) _ _
    · rw [if_neg hc]

/-- C7 witness: the amended lambda behaviour on a concrete three-point
axisymmetric domain. -/
theorem lambdaEquation_witness :
    (evalLambda cfgC7 cache0 x0 rsd0 diagOne 0 2).1 (c_offset_L, 0)
        = -rho_u cache0 x0 0
      ∧ (evalLambda cfgC7 cache0 x0 rsd0 diagOne 0 2).1 (c_offset_L, 1)
          = Lx x0 1 - Lx x0 0
      ∧ (evalLambda cfgC7 cache0 x0 rsd0 diagOne 0 2).2 (c_offset_L, 2) = 0
      ∧ (evalLambda cfgC7 cache0 x0 rsd0 diagOne 0 2).2 (c_offset_L, 1)
          = diagOne (c_offset_L, 1) :=
  ⟨(lambdaEquation cfgC7 cache0 x0 rsd0 diagOne 0 2 rfl (by decide)).1 rfl,
   (lambdaEquation cfgC7 cache0 x0 rsd0 diagOne 0 2 rfl (by decide)).2.1
     1 (by decide) (by decide),
   ((lambdaEquation cfgC7 cache0 x0 rsd0 diagOne 0 2 rfl (by decide)).2.2.1 rfl).2,
   (lambdaEquation cfgC7 cache0 x0 rsd0 diagOne 0 2 rfl (by decide)).2.2.2
     (c_offset_L, 1) (by decide)⟩

/-- C7 counterexample: a full-domain evaluation of a three-point
axisymmetric flow supplied with a classification buffer holding stale
differential marks leaves the interior lambda cell at 1 — the evaluation
does not classify lambda as algebraic (diag = 0) at interior points. -/
theorem lambdaEquation_diag_cex :
    (eval cfgC7 cb0 none x0 rsd0 diagOne 0 cache0).diag (c_offset_L, 1) = 1 := by
  norm_num [eval, assemble, updateProperties, updateThermo, updateTransport, updateDiffFluxes,
    computeRadiation, radLoop, radValue, evalContinuity, evalMomentum, evalEnergy,
    evalLambda, evalElectricField, evalSpecies, maxElementIdx, contInterior,
    momInterior, energyEnabled, speciesInterior, cfgC7, cfg0, cb0, cache0, x0,
    rsd0, diagOne, c_offset_U, c_offset_V, c_offset_T, c_offset_L, c_offset_E,
    c_offset_Y, Function.update]

/-- C5 counterexample: two banded (single-point) evaluations supplied with
identical state buffers, point index, transient weight and configuration
but different previously cached diffusion coefficients produce different
species residuals — a banded evaluation does depend on values cached by
prior calls. -/
theorem evalPure_cex :
    (eval cfgC5 cb0 (some 0) xC5 rsd0 diag0 0 cacheC5A).rsd (c_offset_Y + 1, 0)
      ≠ (eval cfgC5 cb0 (some 0) xC5 rsd0 diag0 0 cacheC5B).rsd (c_offset_Y + 1, 0) := by
  norm_num [eval, assemble, updateProperties, updateThermo, updateTransport, updateDiffFluxes,
    computeRadiation, radLoop, radValue, evalContinuity, evalMomentum, evalEnergy,
    evalLambda, evalElectricField, evalSpecies, maxElementIdx, contInterior,
    momInterior, energyEnabled, speciesInterior, mixFluxRaw, mixFluxCorr, multiFlux,
    gradlogT, sumY, Finset.sum_range_succ, Xx, Yx, Tx, ux, Vx, Lx, rho_u, dz, setGas,
    setGasAtMidpoint, cfgC5, cfg0, cb0, cacheC5A, cacheC5B, cache0, xC5, rsd0,
    diag0, c_offset_U, c_offset_V, c_offset_T, c_offset_L, c_offset_E, c_offset_Y,
    Function.update, Option.some_ne_none]

/-- The thermodynamic refresh writes state-derived values and carries all
other buffers through, so it preserves agreement up to the transport
fields. -/
theorem updateThermo_sbt (cfg : Config) (cb : Collab) (x : Buf) (j0 j1 : ℕ)
    {c c2 : Cache} (h : SameButTransport c c2) :
    SameButTransport (updateThermo cfg cb x j0 j1 c) (updateThermo cfg cb x j0 j1 c2) := by
  obtain ⟨h1, h2, h3, h4, h5, h6, h7, h8⟩ := h
  exact ⟨by funext p; simp [updateThermo, h1],
    by funext p; simp [updateThermo, h2],
    by funext p; simp [updateThermo, h3],
    by funext p; simp [updateThermo, h4],
    by funext p; simp [updateThermo, h5],
    by simp [updateThermo, h6],
    by simp [updateThermo, h7],
    by simp [updateThermo, h8]⟩

/-- The thermodynamic refresh leaves the transport buffers untouched. -/
theorem updateThermo_keeps (cfg : Config) (cb : Collab) (x : Buf) (j0 j1 : ℕ)
    (c : Cache) :
    (updateThermo cfg cb x j0 j1 c).visc = c.visc
      ∧ (updateThermo cfg cb x j0 j1 c).tcon = c.tcon
      ∧ (updateThermo cfg cb x j0 j1 c).diff = c.diff
      ∧ (updateThermo cfg cb x j0 j1 c).multidiff = c.multidiff
      ∧ (updateThermo cfg cb x j0 j1 c).dthermal = c.dthermal
      ∧ (updateThermo cfg cb x j0 j1 c).kExcessLeft = c.kExcessLeft
      ∧ (updateThermo cfg cb x j0 j1 c).kExcessRight = c.kExcessRight := by
  simp [updateThermo]

/-- The transport refresh leaves every non-transport buffer untouched. -/
theorem updateTransport_keeps (cfg : Config) (cb : Collab) (x : Buf) (j0 j1 : ℕ)
    (c : Cache) :
    (updateTransport cfg cb x j0 j1 c).rho = c.rho
      ∧ (updateTransport cfg cb x j0 j1 c).wtm = c.wtm
      ∧ (updateTransport cfg cb x j0 j1 c).cp = c.cp
      ∧ (updateTransport cfg cb x j0 j1 c).wdot = c.wdot
      ∧ (updateTransport cfg cb x j0 j1 c).hk = c.hk
      ∧ (updateTransport cfg cb x j0 j1 c).dhk_dz = c.dhk_dz
      ∧ (updateTransport cfg cb x j0 j1 c).flux = c.flux
      ∧ (updateTransport cfg cb x j0 j1 c).qdotRadiation = c.qdotRadiation
      ∧ (updateTransport cfg cb x j0 j1 c).kExcessLeft = c.kExcessLeft
      ∧ (updateTransport cfg cb x j0 j1 c).kExcessRight = c.kExcessRight := by
  by_cases hmc : cfg.do_multicomponent <;> simp [updateTransport, hmc]

/-- Within the refreshed interval range, the transport refresh writes
values that depend only on the state and the collaborators, never on the
incoming cache: viscosity cells agree across any two caches. -/
theorem updateTransport_visc_eq (cfg : Config) (cb : Collab) (x : Buf)
    (j0 j1 : ℕ) (c c2 : Cache) (j : ℕ) (h1 : j0 ≤ j) (h2 : j < j1) :
    (updateTransport cfg cb x j0 j1 c).visc j
      = (updateTransport cfg cb x j0 j1 c2).visc j := by
  by_cases hmc : cfg.do_multicomponent <;> simp [updateTransport, hmc, h1, h2]

/-- Conductivity cells within the refreshed range agree across caches. -/
theorem updateTransport_tcon_eq (cfg : Config) (cb : Collab) (x : Buf)
    (j0 j1 : ℕ) (c c2 : Cache) (j : ℕ) (h1 : j0 ≤ j) (h2 : j < j1) :
    (updateTransport cfg cb x j0 j1 c).tcon j
      = (updateTransport cfg cb x j0 j1 c2).tcon j := by
  by_cases hmc : cfg.do_multicomponent <;> simp [updateTransport, hmc, h1, h2]

/-- Diffusion-coefficient cells within the refreshed range agree across
caches. -/
theorem updateTransport_diff_eq (cfg : Config) (cb : Collab) (x : Buf)
    (j0 j1 : ℕ) (c c2 : Cache) (i : ℕ) (h1 : j0 ≤ i / cfg.nsp)
    (h2 : i / cfg.nsp < j1) :
    (updateTransport cfg cb x j0 j1 c).diff i
      = (updateTransport cfg cb x j0 j1 c2).diff i := by
  by_cases hmc : cfg.do_multicomponent <;> simp [updateTransport, hmc, h1, h2]

/-- Multicomponent-matrix cells within the refreshed range agree across
caches when multicomponent transport is active. -/
theorem updateTransport_multidiff_eq (cfg : Config) (cb : Collab) (x : Buf)
    (j0 j1 : ℕ) (c c2 : Cache) (i : ℕ) (hm : cfg.do_multicomponent = true)
    (h1 : j0 ≤ i / (cfg.nsp * cfg.nsp)) (h2 : i / (cfg.nsp * cfg.nsp) < j1) :
    (updateTransport cfg cb x j0 j1 c).multidiff i
      = (updateTransport cfg cb x j0 j1 c2).multidiff i := by
  simp [updateTransport, hm, h1, h2]

/-- Thermal-diffusion cells within the refreshed range agree across caches
when Soret is on and multicomponent transport is active. -/
theorem updateTransport_dthermal_eq (cfg : Config) (cb : Collab) (x : Buf)
    (j0 j1 : ℕ) (c c2 : Cache) (p : ℕ × ℕ) (hs : cfg.do_soret = true)
    (hm : cfg.do_multicomponent = true) (h1 : j0 ≤ p.2) (h2 : p.2 < j1)
    (hk : p.1 < cfg.nsp) :
    (updateTransport cfg cb x j0 j1 c).dthermal p
      = (updateTransport cfg cb x j0 j1 c2).dthermal p := by
  simp [updateTransport, hm, hs, h1, h2, hk]

/-- The flux reconstruction leaves every other buffer untouched. -/
theorem updateDiffFluxes_keeps (cfg : Config) (c : Cache) (x : Buf) (j0 j1 : ℕ) :
    (updateDiffFluxes cfg c x j0 j1).rho = c.rho
      ∧ (updateDiffFluxes cfg c x j0 j1).wtm = c.wtm
      ∧ (updateDiffFluxes cfg c x j0 j1).cp = c.cp
      ∧ (updateDiffFluxes cfg c x j0 j1).wdot = c.wdot
      ∧ (updateDiffFluxes cfg c x j0 j1).hk = c.hk
      ∧ (updateDiffFluxes cfg c x j0 j1).dhk_dz = c.dhk_dz
      ∧ (updateDiffFluxes cfg c x j0 j1).qdotRadiation = c.qdotRadiation
      ∧ (updateDiffFluxes cfg c x j0 j1).visc = c.visc
      ∧ (updateDiffFluxes cfg c x j0 j1).tcon = c.tcon
      ∧ (updateDiffFluxes cfg c x j0 j1).kExcessLeft = c.kExcessLeft
      ∧ (updateDiffFluxes cfg c x j0 j1).kExcessRight = c.kExcessRight := by
  simp [updateDiffFluxes]

/-- Division helper: the interval index recovered from a flat
`k + nsp * j` cell. -/
theorem flat_div_left (k j n : ℕ) (hk : k < n) : (k + n * j) / n = j := by
  rw [Nat.add_mul_div_left _ _ (by omega : 0 < n), Nat.div_eq_of_lt hk]
  omega

/-- Division helper: the interval index recovered from a flat
`k + j * nsp` cell. -/
theorem flat_div_right (k j n : ℕ) (hk : k < n) : (k + j * n) / n = j := by
  rw [Nat.add_mul_div_right _ _ (by omega : 0 < n), Nat.div_eq_of_lt hk]
  omega

/-- Division helper: the interval index recovered from a multicomponent
matrix cell. -/
theorem mindex_div (cfg : Config) (k m j : ℕ) (hk : k < cfg.nsp)
    (hm : m < cfg.nsp) :
    mindex cfg k m j / (cfg.nsp * cfg.nsp) = j := by
  have hrw : mindex cfg k m j = m * cfg.nsp + k + cfg.nsp * cfg.nsp * j := by
    rw [mindex]; ring
  have hlt : m * cfg.nsp + k < cfg.nsp * cfg.nsp := by
    have hstep : m * cfg.nsp + k < (m + 1) * cfg.nsp := by
      rw [Nat.succ_mul]; omega
    have hbound : (m + 1) * cfg.nsp ≤ cfg.nsp * cfg.nsp :=
      Nat.mul_le_mul_right _ (by omega)
    omega
  rw [hrw, Nat.add_mul_div_left _ _ (Nat.mul_pos (by omega) (by omega)),
    Nat.div_eq_of_lt hlt]
  omega

/-- The mixture-averaged raw flux reads only the diffusion cell of its own
interval and the cached mean molecular weights of the interval endpoints. -/
theorem mixFluxRaw_congr (cfg : Config) (d d2 : Cache) (x : Buf) (k j : ℕ)
    (hk : k < cfg.nsp)
    (hwtm : d.wtm = d2.wtm)
    (hdiff : ∀ i, i / cfg.nsp = j → d.diff i = d2.diff i) :
    mixFluxRaw cfg d x k j = mixFluxRaw cfg d2 x k j := by
  rw [mixFluxRaw, mixFluxRaw, hdiff (k + cfg.nsp * j) (flat_div_left k j _ hk),
    Xx, Xx, Xx, Xx, hwtm]

/-- The per-interval corrective term under the same reads. -/
theorem mixFluxCorr_congr (cfg : Config) (d d2 : Cache) (x : Buf) (j : ℕ)
    (hwtm : d.wtm = d2.wtm)
    (hdiff : ∀ i, i / cfg.nsp = j → d.diff i = d2.diff i) :
    mixFluxCorr cfg d x j = mixFluxCorr cfg d2 x j := by
  rw [mixFluxCorr, mixFluxCorr]
  exact congrArg Neg.neg (Finset.sum_congr rfl fun k hk =>
    mixFluxRaw_congr cfg d d2 x k j (Finset.mem_range.mp hk) hwtm hdiff)

/-- The multicomponent flux reads only its own interval's matrix block,
diffusion factor, and endpoint mean molecular weights. -/
theorem multiFlux_congr (cfg : Config) (d d2 : Cache) (x : Buf) (k j : ℕ)
    (hk : k < cfg.nsp)
    (hwtm : d.wtm = d2.wtm)
    (hdiff : ∀ i, i / cfg.nsp = j → d.diff i = d2.diff i)
    (hmdiff : ∀ i, i / (cfg.nsp * cfg.nsp) = j → d.multidiff i = d2.multidiff i) :
    multiFlux cfg d x k j = multiFlux cfg d2 x k j := by
  have hsum : ∀ m ∈ Finset.range cfg.nsp,
      cfg.wt m * d.multidiff (mindex cfg k m j)
          * (Xx cfg d x m (j + 1) - Xx cfg d x m j)
        = cfg.wt m * d2.multidiff (mindex cfg k m j)
            * (Xx cfg d2 x m (j + 1) - Xx cfg d2 x m j) := by
    intro m hm
    rw [hmdiff (mindex cfg k m j) (mindex_div cfg k m j hk (Finset.mem_range.mp hm)),
      Xx, Xx, Xx, Xx, hwtm]
  rw [multiFlux, multiFlux, Finset.sum_congr rfl hsum,
    hdiff (k + j * cfg.nsp) (flat_div_right k j _ hk)]

/-- The flux reconstruction over a window produces equal flux tables from
any two caches that agree on the mean molecular weights, the prior flux
table, and the window cells of the diffusion data. -/
theorem updateDiffFluxes_flux_eq (cfg : Config) (d d2 : Cache) (x : Buf)
    (j0 j1 : ℕ)
    (hwtm : d.wtm = d2.wtm) (hflux : d.flux = d2.flux)
    (hdiff : ∀ i, j0 ≤ i / cfg.nsp → i / cfg.nsp < j1 → d.diff i = d2.diff i)
    (hmdiff : cfg.do_multicomponent = true →
        ∀ i, j0 ≤ i / (cfg.nsp * cfg.nsp) → i / (cfg.nsp * cfg.nsp) < j1 →
          d.multidiff i = d2.multidiff i)
    (hdth : cfg.do_soret = true →
        ∀ p : ℕ × ℕ, j0 ≤ p.2 → p.2 < j1 → p.1 < cfg.nsp →
          d.dthermal p = d2.dthermal p) :
    (updateDiffFluxes cfg d x j0 j1).flux = (updateDiffFluxes cfg d2 x j0 j1).flux := by
  funext p
  obtain ⟨k, j⟩ := p
  simp only [updateDiffFluxes]
  by_cases hwin : j0 ≤ j ∧ j < j1 ∧ k < cfg.nsp
  · obtain ⟨hw1, hw2, hw3⟩ := hwin
    have hdiffj : ∀ i, i / cfg.nsp = j → d.diff i = d2.diff i := fun i hi =>
      hdiff i (hi ▸ hw1) (hi ▸ hw2)
    have hmix : mixFluxRaw cfg d x k j + mixFluxCorr cfg d x j * Yx x k j
        = mixFluxRaw cfg d2 x k j + mixFluxCorr cfg d2 x j * Yx x k j := by
      rw [mixFluxRaw_congr cfg d d2 x k j hw3 hwtm hdiffj,
        mixFluxCorr_congr cfg d d2 x j hwtm hdiffj]
    by_cases hs : cfg.do_soret = true
    · by_cases hmc : cfg.do_multicomponent = true
      · simp only [hs, hmc, hw1, hw2, hw3, true_and, and_true, and_self, if_true,
          if_pos]
        rw [multiFlux_congr cfg d d2 x k j hw3 hwtm hdiffj
            (fun i hi => hmdiff hmc i (hi ▸ hw1) (hi ▸ hw2)),
          hdth hs (k, j) hw1 hw2 hw3]
      · simp [hs, hmc, hw1, hw2, hw3]
        rw [hmix, hdth hs (k, j) hw1 hw2 hw3]
    · by_cases hmc : cfg.do_multicomponent = true
      · simp [hs, hmc, hw1, hw2, hw3]
        exact multiFlux_congr cfg d d2 x k j hw3 hwtm hdiffj
          (fun i hi => hmdiff hmc i (hi ▸ hw1) (hi ▸ hw2))
      · simp [hs, hmc, hw1, hw2, hw3]
        exact hmix
  · simp [hwin, hflux]

/-- The radiative loss value reads the cache only through the mean
molecular weight of its own point. -/
theorem radValue_congr (cfg : Config) (d d2 : Cache) (x : Buf)
    (hwtm : d.wtm = d2.wtm) (j : ℕ) :
    radValue cfg d x j = radValue cfg d2 x j := by
  rcases hA : cfg.kRadiating0 with _ | kC <;>
    rcases hB : cfg.kRadiating1 with _ | kH <;>
      simp [radValue, hA, hB, Xx, hwtm]

/-- The radiation write loop is cache-independent up to the mean molecular
weights. -/
theorem radLoop_congr (cfg : Config) (d d2 : Cache) (x : Buf)
    (hwtm : d.wtm = d2.wtm) :
    ∀ (s j0 : ℕ) (q : ℕ → ℚ), radLoop cfg d x j0 s q = radLoop cfg d2 x j0 s q := by
  intro s
  induction s with
  | zero => intro j0 q; rfl
  | succ n ih =>
    intro j0 q
    rw [radLoop, radLoop, radValue_congr cfg d d2 x hwtm j0, ih]

/-- The refreshed radiative-loss buffers agree when the caches agree on the
mean molecular weights and the prior loss buffer. -/
theorem computeRadiation_qdot_eq (cfg : Config) (d d2 : Cache) (x : Buf)
    (a b : ℕ) (hwtm : d.wtm = d2.wtm)
    (hq : d.qdotRadiation = d2.qdotRadiation) :
    (computeRadiation cfg d x a b).qdotRadiation
      = (computeRadiation cfg d2 x a b).qdotRadiation := by
  show radLoop cfg d x a (b - a) d.qdotRadiation
      = radLoop cfg d2 x a (b - a) d2.qdotRadiation
  rw [hq, radLoop_congr cfg d d2 x hwtm]

/-- The continuity assembler reads the cache only through the densities. -/
theorem evalContinuity_congr (cfg : Config) (d d2 : Cache) (x rsd : Buf)
    (diag : DiagBuf) (jmin jmax : ℕ) (hrho : d.rho = d2.rho) :
    evalContinuity cfg d x rsd diag jmin jmax
      = evalContinuity cfg d2 x rsd diag jmin jmax := by
  simp only [evalContinuity, contInterior, rho_u, hrho]

/-- The interior momentum residual reads the cache through the densities
and the interval viscosities of its own two intervals. -/
theorem momInterior_congr (cfg : Config) (d d2 : Cache) (x : Buf) (rdt : ℚ)
    (j : ℕ) (hj1 : 1 ≤ j) (hj2 : j + 1 < cfg.points)
    (hrho : d.rho = d2.rho)
    (hvisc : ∀ i, i + 1 < cfg.points → d.visc i = d2.visc i) :
    momInterior cfg d x rdt j = momInterior cfg d2 x rdt j := by
  rw [momInterior, momInterior, shear, shear, rho_u, rho_u, hrho,
    hvisc j hj2, hvisc (j - 1) (by omega)]

/-- The momentum assembler under the same reads. -/
theorem evalMomentum_congr (cfg : Config) (d d2 : Cache) (x rsd : Buf)
    (diag : DiagBuf) (rdt : ℚ) (jmin jmax : ℕ)
    (hrho : d.rho = d2.rho)
    (hvisc : ∀ i, i + 1 < cfg.points → d.visc i = d2.visc i) :
    evalMomentum cfg d x rsd diag rdt jmin jmax
      = evalMomentum cfg d2 x rsd diag rdt jmin jmax := by
  by_cases hUL : cfg.usesLambda = true
  · simp only [evalMomentum, hUL, Bool.not_true, Bool.false_eq_true, if_false]
    refine Prod.ext (funext fun p => ?_) rfl
    dsimp only
    by_cases hin : p.1 = c_offset_V ∧ max jmin 1 ≤ p.2 ∧ p.2 ≤ min jmax (cfg.points - 2)
    · obtain ⟨h1, h2, h3⟩ := hin
      have hcond : p.1 = c_offset_V ∧ max jmin 1 ≤ p.2 ∧ p.2 ≤ min jmax (cfg.points - 2) :=
        ⟨h1, h2, h3⟩
      rw [if_pos hcond, if_pos hcond,
        momInterior_congr cfg d d2 x rdt p.2 (by omega) (by omega) hrho hvisc]
    · rw [if_neg hin, if_neg hin]
  · simp [evalMomentum, hUL]

/-- The enabled energy residual reads the cache through density, specific
heat, production rates, enthalpies, fluxes, radiative loss, and the
conductivities of its own two intervals. -/
theorem energyEnabled_congr (cfg : Config) (d d2 : Cache) (x : Buf) (rdt : ℚ)
    (j : ℕ) (hj1 : 1 ≤ j) (hj2 : j + 1 < cfg.points)
    (hrho : d.rho = d2.rho) (hcp : d.cp = d2.cp) (hwdot : d.wdot = d2.wdot)
    (hhk : d.hk = d2.hk) (hflux : d.flux = d2.flux)
    (hqdot : d.qdotRadiation = d2.qdotRadiation)
    (htcon : ∀ i, i + 1 < cfg.points → d.tcon i = d2.tcon i) :
    energyEnabled cfg d x rdt j = energyEnabled cfg d2 x rdt j := by
  simp only [energyEnabled, energySum, divHeatFlux, grad_hk_val, rho_u, hrho, hcp,
    hwdot, hhk, hflux, hqdot, htcon j hj2, htcon (j - 1) (by omega)]

/-- The energy assembler residual output under the same reads. -/
theorem evalEnergy_rsd_congr (cfg : Config) (d d2 : Cache) (x rsd : Buf)
    (diag : DiagBuf) (rdt : ℚ) (jmin jmax : ℕ)
    (hrho : d.rho = d2.rho) (hcp : d.cp = d2.cp) (hwdot : d.wdot = d2.wdot)
    (hhk : d.hk = d2.hk) (hflux : d.flux = d2.flux)
    (hqdot : d.qdotRadiation = d2.qdotRadiation)
    (htcon : ∀ i, i + 1 < cfg.points → d.tcon i = d2.tcon i) :
    (evalEnergy cfg d x rsd diag rdt jmin jmax).1
      = (evalEnergy cfg d2 x rsd diag rdt jmin jmax).1 := by
  funext p
  simp only [evalEnergy]
  by_cases hin : p.1 = c_offset_T ∧ max jmin 1 ≤ p.2 ∧ p.2 ≤ min jmax (cfg.points - 2)
  · obtain ⟨h1, h2, h3⟩ := hin
    have hcond : p.1 = c_offset_T ∧ max jmin 1 ≤ p.2 ∧ p.2 ≤ min jmax (cfg.points - 2) :=
      ⟨h1, h2, h3⟩
    rw [if_pos hcond, if_pos hcond]
    by_cases he : cfg.do_energy p.2 = true
    · rw [if_pos he, if_pos he,
        energyEnabled_congr cfg d d2 x rdt p.2 (by omega) (by omega) hrho hcp
          hwdot hhk hflux hqdot htcon]
    · rw [if_neg he, if_neg he]
  · rw [if_neg hin, if_neg hin]

/-- The lambda assembler reads the cache only through the densities. -/
theorem evalLambda_congr (cfg : Config) (d d2 : Cache) (x rsd : Buf)
    (diag : DiagBuf) (jmin jmax : ℕ) (hrho : d.rho = d2.rho) :
    evalLambda cfg d x rsd diag jmin jmax = evalLambda cfg d2 x rsd diag jmin jmax := by
  simp only [evalLambda, rho_u, hrho]

/-- The species assembler reads the cache through densities, production
rates, fluxes, and the excess-species indices. -/
theorem evalSpecies_congr (cfg : Config) (d d2 : Cache) (x rsd : Buf)
    (diag : DiagBuf) (rdt : ℚ) (jmin jmax : ℕ)
    (hrho : d.rho = d2.rho) (hwdot : d.wdot = d2.wdot) (hflux : d.flux = d2.flux)
    (hkl : d.kExcessLeft = d2.kExcessLeft)
    (hkr : d.kExcessRight = d2.kExcessRight) :
    evalSpecies cfg d x rsd diag rdt jmin jmax
      = evalSpecies cfg d2 x rsd diag rdt jmin jmax := by
  simp only [evalSpecies, speciesInterior, rho_u, hrho, hwdot, hflux, hkl, hkr]

/-- The full assembler sequence produces identical residual and
classification outputs from any two caches that agree on every buffer it
reads (everything except the raw diffusion data, which only enters through
the already-built flux table). -/
theorem assemble_congr (cfg : Config) (d d2 : Cache) (x rsd : Buf)
    (diag : DiagBuf) (rdt : ℚ) (jmin jmax : ℕ)
    (hrho : d.rho = d2.rho) (hcp : d.cp = d2.cp) (hwdot : d.wdot = d2.wdot)
    (hhk : d.hk = d2.hk) (hflux : d.flux = d2.flux)
    (hqdot : d.qdotRadiation = d2.qdotRadiation)
    (hkl : d.kExcessLeft = d2.kExcessLeft)
    (hkr : d.kExcessRight = d2.kExcessRight)
    (hvisc : ∀ i, i + 1 < cfg.points → d.visc i = d2.visc i)
    (htcon : ∀ i, i + 1 < cfg.points → d.tcon i = d2.tcon i) :
    (assemble cfg d x rsd diag rdt jmin jmax).rsd
        = (assemble cfg d2 x rsd diag rdt jmin jmax).rsd
      ∧ (assemble cfg d x rsd diag rdt jmin jmax).diag
        = (assemble cfg d2 x rsd diag rdt jmin jmax).diag := by
  simp only [assemble]
  rw [evalContinuity_congr cfg d d2 x rsd diag jmin jmax hrho]
  rw [evalMomentum_congr cfg d d2 x
    (evalContinuity cfg d2 x rsd diag jmin jmax).1
    (evalContinuity cfg d2 x rsd diag jmin jmax).2 rdt jmin jmax hrho hvisc]
  rw [evalEnergy_rsd_congr cfg d d2 x
    (evalMomentum cfg d2 x (evalContinuity cfg d2 x rsd diag jmin jmax).1
      (evalContinuity cfg d2 x rsd diag jmin jmax).2 rdt jmin jmax).1
    (evalMomentum cfg d2 x (evalContinuity cfg d2 x rsd diag jmin jmax).1
      (evalContinuity cfg d2 x rsd diag jmin jmax).2 rdt jmin jmax).2
    rdt jmin jmax hrho hcp hwdot hhk hflux hqdot htcon]
  rw [show (evalEnergy cfg d x
      (evalMomentum cfg d2 x (evalContinuity cfg d2 x rsd diag jmin jmax).1
        (evalContinuity cfg d2 x rsd diag jmin jmax).2 rdt jmin jmax).1
      (evalMomentum cfg d2 x (evalContinuity cfg d2 x rsd diag jmin jmax).1
        (evalContinuity cfg d2 x rsd diag jmin jmax).2 rdt jmin jmax).2
      rdt jmin jmax).2.1
    = (evalEnergy cfg d2 x
      (evalMomentum cfg d2 x (evalContinuity cfg d2 x rsd diag jmin jmax).1
        (evalContinuity cfg d2 x rsd diag jmin jmax).2 rdt jmin jmax).1
      (evalMomentum cfg d2 x (evalContinuity cfg d2 x rsd diag jmin jmax).1
        (evalContinuity cfg d2 x rsd diag jmin jmax).2 rdt jmin jmax).2
      rdt jmin jmax).2.1 from rfl]
  rw [evalLambda_congr cfg
    (evalEnergy cfg d x
      (evalMomentum cfg d2 x (evalContinuity cfg d2 x rsd diag jmin jmax).1
        (evalContinuity cfg d2 x rsd diag jmin jmax).2 rdt jmin jmax).1
      (evalMomentum cfg d2 x (evalContinuity cfg d2 x rsd diag jmin jmax).1
        (evalContinuity cfg d2 x rsd diag jmin jmax).2 rdt jmin jmax).2
      rdt jmin jmax).2.2
    (evalEnergy cfg d2 x
      (evalMomentum cfg d2 x (evalContinuity cfg d2 x rsd diag jmin jmax).1
        (evalContinuity cfg d2 x rsd diag jmin jmax).2 rdt jmin jmax).1
      (evalMomentum cfg d2 x (evalContinuity cfg d2 x rsd diag jmin jmax).1
        (evalContinuity cfg d2 x rsd diag jmin jmax).2 rdt jmin jmax).2
      rdt jmin jmax).2.2 x _ _ jmin jmax hrho]
  rw [evalSpecies_congr cfg
    (evalEnergy cfg d x
      (evalMomentum cfg d2 x (evalContinuity cfg d2 x rsd diag jmin jmax).1
        (evalContinuity cfg d2 x rsd diag jmin jmax).2 rdt jmin jmax).1
      (evalMomentum cfg d2 x (evalContinuity cfg d2 x rsd diag jmin jmax).1
        (evalContinuity cfg d2 x rsd diag jmin jmax).2 rdt jmin jmax).2
      rdt jmin jmax).2.2
    (evalEnergy cfg d2 x
      (evalMomentum cfg d2 x (evalContinuity cfg d2 x rsd diag jmin jmax).1
        (evalContinuity cfg d2 x rsd diag jmin jmax).2 rdt jmin jmax).1
      (evalMomentum cfg d2 x (evalContinuity cfg d2 x rsd diag jmin jmax).1
        (evalContinuity cfg d2 x rsd diag jmin jmax).2 rdt jmin jmax).2
      rdt jmin jmax).2.2 x _ _ rdt jmin jmax hrho hwdot hflux hkl hkr]
  exact ⟨rfl, rfl⟩

/-- A full-window property refresh (`updateProperties` with no Jacobian
point) leaves the two caches in agreement on every buffer the assemblers
read: the thermodynamic data, fluxes, radiative loss, excess indices, and
the transport coefficients of every interval of the grid. -/
theorem UP_full_eq (cfg : Config) (cb : Collab) (x : Buf) (c c2 : Cache)
    (h : SameButTransport c c2)
    (hsor : cfg.do_soret = true → cfg.do_multicomponent = true) :
    (updateProperties cfg cb none x 0 (cfg.points - 1) c).rho
        = (updateProperties cfg cb none x 0 (cfg.points - 1) c2).rho
      ∧ (updateProperties cfg cb none x 0 (cfg.points - 1) c).cp
          = (updateProperties cfg cb none x 0 (cfg.points - 1) c2).cp
      ∧ (updateProperties cfg cb none x 0 (cfg.points - 1) c).wdot
          = (updateProperties cfg cb none x 0 (cfg.points - 1) c2).wdot
      ∧ (updateProperties cfg cb none x 0 (cfg.points - 1) c).hk
          = (updateProperties cfg cb none x 0 (cfg.points - 1) c2).hk
      ∧ (updateProperties cfg cb none x 0 (cfg.points - 1) c).wtm
          = (updateProperties cfg cb none x 0 (cfg.points - 1) c2).wtm
      ∧ (updateProperties cfg cb none x 0 (cfg.points - 1) c).flux
          = (updateProperties cfg cb none x 0 (cfg.points - 1) c2).flux
      ∧ (updateProperties cfg cb none x 0 (cfg.points - 1) c).qdotRadiation
          = (updateProperties cfg cb none x 0 (cfg.points - 1) c2).qdotRadiation
      ∧ (updateProperties cfg cb none x 0 (cfg.points - 1) c).kExcessLeft
          = (updateProperties cfg cb none x 0 (cfg.points - 1) c2).kExcessLeft
      ∧ (updateProperties cfg cb none x 0 (cfg.points - 1) c).kExcessRight
          = (updateProperties cfg cb none x 0 (cfg.points - 1) c2).kExcessRight
      ∧ (∀ j, j + 1 < cfg.points →
          (updateProperties cfg cb none x 0 (cfg.points - 1) c).visc j
            = (updateProperties cfg cb none x 0 (cfg.points - 1) c2).visc j)
      ∧ (∀ j, j + 1 < cfg.points →
          (updateProperties cfg cb none x 0 (cfg.points - 1) c).tcon j
            = (updateProperties cfg cb none x 0 (cfg.points - 1) c2).tcon j) := by
  obtain ⟨t1, t2, t3, t4, t5, t6, t7, t8⟩ :=
    updateThermo_sbt cfg cb x (max 0 1 - 1)
      (min (cfg.points - 1 + 1) (cfg.points - 1)) h
  have hUP : ∀ cx : Cache,
      updateProperties cfg cb none x 0 (cfg.points - 1) cx
        = updateDiffFluxes cfg
            { updateTransport cfg cb x (max 0 1 - 1)
                (min (cfg.points - 1 + 1) (cfg.points - 1))
                (updateThermo cfg cb x (max 0 1 - 1)
                  (min (cfg.points - 1 + 1) (cfg.points - 1)) cx) with
              kExcessLeft := maxElementIdx (fun k => Yx x k 0) cfg.nsp
              kExcessRight :=
                maxElementIdx (fun k => Yx x k (cfg.points - 1)) cfg.nsp }
            x (max 0 1 - 1) (min (cfg.points - 1 + 1) (cfg.points - 1)) := by
    intro cx
    simp [updateProperties]
  obtain ⟨kTv, kTt, kTd, kTm, kTth, kTl, kTr⟩ :=
    updateThermo_keeps cfg cb x (max 0 1 - 1)
      (min (cfg.points - 1 + 1) (cfg.points - 1)) c
  obtain ⟨kTv2, kTt2, kTd2, kTm2, kTth2, kTl2, kTr2⟩ :=
    updateThermo_keeps cfg cb x (max 0 1 - 1)
      (min (cfg.points - 1 + 1) (cfg.points - 1)) c2
  obtain ⟨r1, r2, r3, r4, r5, r6, r7, r8, r9, r10⟩ :=
    updateTransport_keeps cfg cb x (max 0 1 - 1)
      (min (cfg.points - 1 + 1) (cfg.points - 1))
      (updateThermo cfg cb x (max 0 1 - 1)
        (min (cfg.points - 1 + 1) (cfg.points - 1)) c)
  obtain ⟨s1, s2, s3, s4, s5, s6, s7, s8, s9, s10⟩ :=
    updateTransport_keeps cfg cb x (max 0 1 - 1)
      (min (cfg.points - 1 + 1) (cfg.points - 1))
      (updateThermo cfg cb x (max 0 1 - 1)
        (min (cfg.points - 1 + 1) (cfg.points - 1)) c2)
  obtain ⟨f1, f2, f3, f4, f5, f6, f7, f8, f9, f10, f11⟩ :=
    updateDiffFluxes_keeps cfg
      { updateTransport cfg cb x (max 0 1 - 1)
          (min (cfg.points - 1 + 1) (cfg.points - 1))
          (updateThermo cfg cb x (max 0 1 - 1)
            (min (cfg.points - 1 + 1) (cfg.points - 1)) c) with
        kExcessLeft := maxElementIdx (fun k => Yx x k 0) cfg.nsp
        kExcessRight := maxElementIdx (fun k => Yx x k (cfg.points - 1)) cfg.nsp }
      x (max 0 1 - 1) (min (cfg.points - 1 + 1) (cfg.points - 1))
  obtain ⟨g1, g2, g3, g4, g5, g6, g7, g8, g9, g10, g11⟩ :=
    updateDiffFluxes_keeps cfg
      { updateTransport cfg cb x (max 0 1 - 1)
          (min (cfg.points - 1 + 1) (cfg.points - 1))
          (updateThermo cfg cb x (max 0 1 - 1)
            (min (cfg.points - 1 + 1) (cfg.points - 1)) c2) with
        kExcessLeft := maxElementIdx (fun k => Yx x k 0) cfg.nsp
        kExcessRight := maxElementIdx (fun k => Yx x k (cfg.points - 1)) cfg.nsp }
      x (max 0 1 - 1) (min (cfg.points - 1 + 1) (cfg.points - 1))
  have hwin : ∀ j, j + 1 < cfg.points →
      (max 0 1 - 1 ≤ j ∧ j < min (cfg.points - 1 + 1) (cfg.points - 1)) :=
    fun j hj => ⟨by omega, by omega⟩
  rw [hUP c, hUP c2]
  refine ⟨?_, ?_, ?_, ?_, ?_, ?_, ?_, ?_, ?_, ?_, ?_⟩
  · rw [f1, g1]; dsimp only; rw [r1, s1]; exact t1
  · rw [f3, g3]; dsimp only; rw [r3, s3]; exact t3
  · rw [f4, g4]; dsimp only; rw [r4, s4]; exact t4
  · rw [f5, g5]; dsimp only; rw [r5, s5]; exact t5
  · rw [f2, g2]; dsimp only; rw [r2, s2]; exact t2
  · refine updateDiffFluxes_flux_eq cfg _ _ x _ _ ?_ ?_ ?_ ?_ ?_
    · dsimp only; rw [r2, s2]; exact t2
    · dsimp only; rw [r7, s7]; exact t7
    · intro i hi1 hi2
      dsimp only
      exact updateTransport_diff_eq cfg cb x _ _ _ _ i hi1 hi2
    · intro hm i hi1 hi2
      dsimp only
      exact updateTransport_multidiff_eq cfg cb x _ _ _ _ i hm hi1 hi2
    · intro hs p hp1 hp2 hpk
      dsimp only
      exact updateTransport_dthermal_eq cfg cb x _ _ _ _ p hs (hsor hs) hp1 hp2 hpk
  · rw [f7, g7]; dsimp only; rw [r8, s8]; exact t8
  · rw [f10, g10]
  · rw [f11, g11]
  · intro j hj
    rw [f8, g8]
    dsimp only
    exact updateTransport_visc_eq cfg cb x _ _ _ _ j (hwin j hj).1 (hwin j hj).2
  · intro j hj
    rw [f9, g9]
    dsimp only
    exact updateTransport_tcon_eq cfg cb x _ _ _ _ j (hwin j hj).1 (hwin j hj).2

/-- C5 (amended): a full-domain evaluation refreshes the transport
coefficients and excess-species indices from the supplied state before any
residual is formed, so its residual and classification outputs are
identical for any two cached transport-coefficient/excess-index states
(given the finalize-enforced invariant that Soret implies multicomponent
transport); a banded evaluation, by contrast, reuses those cached values
and its outputs do depend on them (see the counterexample). -/
theorem evalFullTransportIndependent (cfg : Config) (cb : Collab) (x rsd : Buf)
    (diag : DiagBuf) (rdt : ℚ) (c c2 : Cache)
    (hsame : SameButTransport c c2)
    (hsor : cfg.do_soret = true → cfg.do_multicomponent = true) :
    (eval cfg cb none x rsd diag rdt c).rsd = (eval cfg cb none x rsd diag rdt c2).rsd
      ∧ (eval cfg cb none x rsd diag rdt c).diag
        = (eval cfg cb none x rsd diag rdt c2).diag := by
  obtain ⟨hrho, hcp, hwdot, hhk, hwtm, hflux, hqd, hkl, hkr, hvisc, htcon⟩ :=
    UP_full_eq cfg cb x c c2 hsame hsor
  have heval : ∀ cx : Cache,
      eval cfg cb none x rsd diag rdt cx
        = assemble cfg
            (if cfg.do_radiation then
              computeRadiation cfg
                (updateProperties cfg cb none x 0 (cfg.points - 1) cx) x
                0 (cfg.points - 1)
            else updateProperties cfg cb none x 0 (cfg.points - 1) cx)
            x rsd diag rdt 0 (cfg.points - 1) := by
    intro cx
    simp [eval]
  rw [heval c, heval c2]
  by_cases hrad : cfg.do_radiation = true
  · rw [if_pos hrad, if_pos hrad]
    exact assemble_congr cfg _ _ x rsd diag rdt 0 (cfg.points - 1)
      hrho hcp hwdot hhk hflux
      (computeRadiation_qdot_eq cfg _ _ x 0 (cfg.points - 1) hwtm hqd)
      hkl hkr hvisc htcon
  · rw [if_neg hrad, if_neg hrad]
    exact assemble_congr cfg _ _ x rsd diag rdt 0 (cfg.points - 1)
      hrho hcp hwdot hhk hflux hqd hkl hkr hvisc htcon

/-- C5 witness: the two caches of the counterexample (which differ only in
the cached diffusion coefficients) give identical outputs under a
full-domain evaluation. -/
theorem evalFullTransportIndependent_witness :
    (eval cfgC5 cb0 none xC5 rsd0 diag0 0 cacheC5A).rsd
      = (eval cfgC5 cb0 none xC5 rsd0 diag0 0 cacheC5B).rsd :=
  (evalFullTransportIndependent cfgC5 cb0 xC5 rsd0 diag0 0 cacheC5A cacheC5B
    ⟨rfl, rfl, rfl, rfl, rfl, rfl, rfl, rfl⟩ (by decide)).1

end StFlow
